import Mathlib

/-!
# The service report form controller

A shallow embedding of `src/script.js` (class `ServiceReportApp`) and the properties of
its validation, persistence and formatting code.

The browser is represented by explicit values:

* the document is the list of form controls in tree order together with the elements that
  show validation messages (kept apart from the controls); other elements are not
  represented, and a control's value is any text (the sanitising that the platform applies
  to typed inputs is not represented);
* `localStorage` is an association list from keys to strings and has no quota: `setItem`
  always succeeds;
* what the platform supplies to one run of a handler (clock, random source, the answer to
  `confirm`, `JSON`, date parsing) is collected in `Env`;
* numbers are binary64 values, computed exactly (`Number`); time values are integers;
* a handler that stops on an uncaught exception returns the state reached so far.

Part I holds the definitions, Part II the theorems.
-/

namespace ServiceReport

/-! ## Part I. Definitions -/

/-! ### Text -/

/-- Code points matched by the regular-expression class `\s` and removed by
`String.prototype.trim`: ECMAScript WhiteSpace and LineTerminator. -/
def isJsWhitespace (c : Char) : Bool :=
  let n := c.toNat
  n = 9 || n = 10 || n = 11 || n = 12 || n = 13 || n = 32 || n = 160 || n = 5760 ||
    (8192 ≤ n && n ≤ 8202) || n = 8232 || n = 8233 || n = 8239 || n = 8287 ||
    n = 12288 || n = 65279

/-- Characters of `s.trim()`. -/
def trimChars (s : List Char) : List Char :=
  ((s.dropWhile isJsWhitespace).reverse.dropWhile isJsWhitespace).reverse

/-- The call `s.trim()`. -/
def jsTrim (s : String) : String := String.mk (trimChars s.data)

/-- The character of a decimal digit. -/
def digitChar (d : Nat) : Char := Char.ofNat (48 + d)

/-- Decimal digits of `n`, most significant first; `fuel` bounds the number of digits. -/
def natDigits : Nat → Nat → List Char
  | 0, _ => []
  | fuel + 1, n => if n < 10 then [digitChar n] else natDigits fuel (n / 10) ++ [digitChar (n % 10)]

/-- Decimal digits of a non-negative integer, as `Number.prototype.toString` writes them. -/
def natToString (n : Nat) : String := String.mk (natDigits (n + 1) n)

/-- The characters `0` to `9`. -/
def isDigit (c : Char) : Bool := 48 ≤ c.toNat && c.toNat ≤ 57

/-- The number written by a run of decimal digits. -/
def digitsToNat (cs : List Char) : Nat := cs.foldl (fun acc c => 10 * acc + (c.toNat - 48)) 0

/-- An optional sign at the head of a text: whether it is `-`, and the rest. -/
def readSign (cs : List Char) : Bool × List Char :=
  match cs with
  | '-' :: r => (true, r)
  | '+' :: r => (false, r)
  | _ => (false, cs)

/-- The call `s.padStart(len, fill)` for a one-character filler. -/
def padStart (s : String) (len : Nat) (fill : Char) : String :=
  String.mk (List.replicate (len - s.data.length) fill ++ s.data)

/-- Decimal text of an integer-valued number. -/
def intToString (i : Int) : String :=
  if i < 0 then String.mk ('-' :: (natToString i.natAbs).data) else natToString i.toNat

/-- The characters `0` to `9`, `a` to `f` and `A` to `F`. -/
def isHexDigit (c : Char) : Bool :=
  isDigit c || (97 ≤ c.toNat && c.toNat ≤ 102) || (65 ≤ c.toNat && c.toNat ≤ 70)

/-- The value of a hexadecimal digit. -/
def hexDigitValue (c : Char) : Nat :=
  if isDigit c then c.toNat - 48 else if 97 ≤ c.toNat then c.toNat - 87 else c.toNat - 55

/-- The number written by a run of hexadecimal digits. -/
def hexToNat (cs : List Char) : Nat := cs.foldl (fun acc c => 16 * acc + hexDigitValue c) 0

/-- A marker `0x` or `0X` at the head of a text: whether it is there, and the rest. -/
def readHexMarker (cs : List Char) : Bool × List Char :=
  match cs with
  | '0' :: 'x' :: r => (true, r)
  | '0' :: 'X' :: r => (true, r)
  | _ => (false, cs)

/-- The call `Number.parseInt(s)` without a radix: leading white space is skipped, a sign
and a `0x` marker are read, then the longest run of digits; `none` is NaN.  The result is
the exact integer (time values stay below `2 ^ 53`, where binary64 is exact). -/
def parseInt (s : String) : Option Int :=
  let cs := s.data.dropWhile isJsWhitespace
  let (neg, body) := readSign cs
  let (hex, rest) := readHexMarker body
  let digits := if hex then rest.takeWhile isHexDigit else rest.takeWhile isDigit
  if digits.isEmpty then none
  else
    let v : Int := if hex then hexToNat digits else digitsToNat digits
    some (if neg then -v else v)

/-! ### Numbers -/

/-- Number values: NaN, the two infinities, and finite binary64 values `± mant · 2 ^ exp`
(the two zeros are not told apart). -/
inductive Number where
  | nan : Number
  | inf (neg : Bool) : Number
  | fin (neg : Bool) (mant : Nat) (exp : Int) : Number
deriving DecidableEq

/-- Nearest integer to `n / d`, ties to the even one. -/
def roundHalfEven (n d : Nat) : Nat :=
  let q := n / d
  let r := n % d
  if 2 * r < d then q else if d < 2 * r then q + 1 else if q % 2 = 0 then q else q + 1

/-- Number of binary digits of `n`, by repeated halving. -/
def bitLength : Nat → Nat → Nat
  | 0, _ => 0
  | fuel + 1, n => if n = 0 then 0 else bitLength fuel (n / 2) + 1

/-- Greatest `e` with `2 ^ e ≤ n / d`, for positive `n` and `d`. -/
def floorLog2 (n d : Nat) : Int :=
  let e : Int := (bitLength n n : Int) - (bitLength d d : Int)
  if d * 2 ^ e.toNat ≤ n * 2 ^ (-e).toNat then e else e - 1

/-- Binary64 value nearest to `± n / d` (round to nearest, ties to even). -/
def roundToDouble (neg : Bool) (n d : Nat) : Number :=
  if n = 0 then Number.fin false 0 0
  else
    let e := max (floorLog2 n d) (-1022)
    if e > 1023 then Number.inf neg
    else
      let s : Int := 52 - e
      let m := roundHalfEven (n * 2 ^ s.toNat) (d * 2 ^ (-s).toNat)
      if m = 2 ^ 53 then (if e = 1023 then Number.inf neg else Number.fin neg (2 ^ 52) (e - 51))
      else Number.fin neg m (e - 52)

/-- Binary64 value nearest to `± n · 2 ^ e`. -/
def roundScaled (neg : Bool) (n : Nat) (e : Int) : Number :=
  roundToDouble neg (n * 2 ^ e.toNat) (2 ^ (-e).toNat)

namespace Number

/-- The number zero. -/
def zero : Number := fin false 0 0

/-- The number written by an integer literal. -/
def ofNat (n : Nat) : Number := roundToDouble false n 1

/-- A mantissa with its sign, as an integer. -/
def signedMant (neg : Bool) (m : Nat) : Int := if neg then -(m : Int) else m

/-- The sum `x + y`. -/
def add : Number → Number → Number
  | nan, _ => nan
  | _, nan => nan
  | inf a, inf b => if a = b then inf a else nan
  | inf a, fin _ _ _ => inf a
  | fin _ _ _, inf b => inf b
  | fin s₁ m₁ e₁, fin s₂ m₂ e₂ =>
    let e := min e₁ e₂
    let v := signedMant s₁ (m₁ * 2 ^ (e₁ - e).toNat) + signedMant s₂ (m₂ * 2 ^ (e₂ - e).toNat)
    roundScaled (decide (v < 0)) v.natAbs e

/-- The product `x * y`. -/
def mul : Number → Number → Number
  | nan, _ => nan
  | _, nan => nan
  | inf a, inf b => inf (a != b)
  | inf a, fin s m _ => if m = 0 then nan else inf (a != s)
  | fin s m _, inf b => if m = 0 then nan else inf (s != b)
  | fin s₁ m₁ e₁, fin s₂ m₂ e₂ => roundScaled (s₁ != s₂) (m₁ * m₂) (e₁ + e₂)

/-- The test `x > 0`. -/
def gtZero : Number → Bool
  | nan => false
  | inf neg => !neg
  | fin neg m _ => !neg && decide (0 < m)

/-- Truthiness of a number: neither NaN nor zero. -/
def truthy : Number → Bool
  | nan => false
  | inf _ => true
  | fin _ m _ => decide (0 < m)

/-- The expression `x || 0`. -/
def orZero (x : Number) : Number := if truthy x then x else zero

/-- Nearest integer to `m · 2 ^ e · 10`, the larger one on a tie. -/
def tenthsRounded (m : Nat) (e : Int) : Nat :=
  (2 * (10 * m * 2 ^ e.toNat) + 2 ^ (-e).toNat) / (2 * 2 ^ (-e).toNat)

/-- Whether `m · 2 ^ e ≥ 10 ^ 21`. -/
def atLeast1e21 (m : Nat) (e : Int) : Bool := decide (10 ^ 21 * 2 ^ (-e).toNat ≤ m * 2 ^ e.toNat)


/-- Whether `s · p` is a decimal that reads back as the integer `x`. -/
def readsBack (x s p : Nat) : Bool :=
  match roundToDouble false (s * p) 1 with
  | fin _ m e => decide (m * 2 ^ e.toNat = x)
  | _ => false

/-- Distance of two naturals. -/
def dist (a b : Nat) : Nat := if a ≤ b then b - a else a - b

/-- Search for the shortest decimal `s · 10 ^ (n - k)` that reads back as `x`, trying
`k = k₀, k₀ + 1, …`; `n` is the number of digits of `x`. -/
def shortestDecimal (x n : Nat) : Nat → Nat → Nat
  | 0, _ => x
  | fuel + 1, k =>
    let p := 10 ^ (n - k)
    let lo := x / p
    let okLo := readsBack x lo p
    let okHi := readsBack x (lo + 1) p
    if okLo && okHi then
      (if dist (lo * p) x < dist ((lo + 1) * p) x then lo * p
       else if dist ((lo + 1) * p) x < dist (lo * p) x then (lo + 1) * p
       else if lo % 2 = 0 then lo * p else (lo + 1) * p)
    else if okLo then lo * p
    else if okHi then (lo + 1) * p
    else shortestDecimal x n fuel (k + 1)

/-- A digit text without its trailing zeros. -/
def dropTrailingZeros (cs : List Char) : List Char :=
  (cs.reverse.dropWhile (fun c => c == '0')).reverse

/-- The text `Number::toString` gives the integer-valued number `x ≥ 10 ^ 21`
(exponential form). -/
def bigToString (x : Nat) : String :=
  let n := (natDigits (x + 1) x).length
  let v := shortestDecimal x n 17 1
  let ds := natDigits (v + 1) v
  let e := ds.length - 1
  match dropTrailingZeros ds with
  | [] => "0"
  | [d] => String.mk (d :: 'e' :: '+' :: natDigits (e + 1) e)
  | d :: rest => String.mk (d :: '.' :: rest ++ 'e' :: '+' :: natDigits (e + 1) e)

/-- Digits of `n` tenths written with one decimal place. -/
def tenthsToString (n : Nat) : String :=
  String.mk (natDigits (n / 10 + 1) (n / 10) ++ ['.', digitChar (n % 10)])

/-- The call `x.toFixed(1)`. -/
def toFixed1 : Number → String
  | nan => "NaN"
  | inf neg => if neg then "-Infinity" else "Infinity"
  | fin neg m e =>
    let sign := if neg && decide (0 < m) then "-" else ""
    if atLeast1e21 m e then sign ++ bigToString (m * 2 ^ e.toNat)
    else sign ++ tenthsToString (tenthsRounded m e)

/-- The call `Math.floor(x)`.  The floor of a binary64 value is a binary64 value, so no
rounding takes place; it is returned with exponent zero. -/
def floor : Number → Number
  | fin false m e => fin false (m * 2 ^ e.toNat / 2 ^ (-e).toNat) 0
  | fin true m e => fin true ((m * 2 ^ e.toNat + (2 ^ (-e).toNat - 1)) / 2 ^ (-e).toNat) 0
  | x => x

/-- The text `Number::toString` gives a number whose value is an integer (the only use is on the result
of `Math.floor`): decimal digits below `10 ^ 21`, exponential form from there on. -/
def toText : Number → String
  | nan => "NaN"
  | inf neg => if neg then "-Infinity" else "Infinity"
  | fin neg m e =>
    let sign := if neg && decide (0 < m) then "-" else ""
    if atLeast1e21 m e then sign ++ bigToString (m * 2 ^ e.toNat)
    else sign ++ natToString (m * 2 ^ e.toNat / 2 ^ (-e).toNat)

end Number

/-- Exponent part of a decimal literal: `e` or `E`, an optional sign and at least one digit. -/
def parseExponent (cs : List Char) : Int :=
  match cs with
  | c :: rest =>
    if c == 'e' || c == 'E' then
      let (neg, ds) := readSign rest
      let digits := ds.takeWhile isDigit
      if digits.isEmpty then 0
      else if neg then -(digitsToNat digits : Int) else (digitsToNat digits : Int)
    else 0
  | [] => 0

/-- The call `Number.parseFloat(s)`: the longest leading decimal literal of the trimmed text. -/
def parseFloat (s : String) : Number :=
  let cs := s.data.dropWhile isJsWhitespace
  let (neg, body) := readSign cs
  if "Infinity".data.isPrefixOf body then Number.inf neg
  else
    let intDigits := body.takeWhile isDigit
    let afterInt := body.dropWhile isDigit
    let fracDigits := match afterInt with
      | '.' :: r => r.takeWhile isDigit
      | _ => []
    let afterFrac := match afterInt with
      | '.' :: r => r.dropWhile isDigit
      | _ => afterInt
    if intDigits.isEmpty && fracDigits.isEmpty then Number.nan
    else
      let e : Int := parseExponent afterFrac - fracDigits.length
      roundToDouble neg (digitsToNat (intDigits ++ fracDigits) * 10 ^ e.toNat) (10 ^ (-e).toNat)

/-! ### Regular expressions -/

/-- Regular expressions over characters; a class is given by its membership test. -/
inductive Regex where
  | empty : Regex
  | eps : Regex
  | cls : (Char → Bool) → Regex
  | seq : Regex → Regex → Regex
  | alt : Regex → Regex → Regex
  | star : Regex → Regex

namespace Regex

/-- The quantifier `r+`. -/
def plus (r : Regex) : Regex := seq r (star r)

/-- The counted repetition `r{n}`. -/
def count : Nat → Regex → Regex
  | 0, _ => eps
  | n + 1, r => seq r (count n r)

/-- A literal character. -/
def lit (c : Char) : Regex := cls (fun d => d == c)

/-- Whether the empty text matches. -/
def nullable : Regex → Bool
  | empty => false
  | eps => true
  | cls _ => false
  | seq r q => nullable r && nullable q
  | alt r q => nullable r || nullable q
  | star _ => true

/-- Brzozowski derivative: what must match after the character `c` has been read. -/
def deriv : Regex → Char → Regex
  | empty, _ => empty
  | eps, _ => empty
  | cls p, c => if p c then eps else empty
  | seq r q, c => if nullable r then alt (seq (deriv r c) q) (deriv q c) else seq (deriv r c) q
  | alt r q, c => alt (deriv r c) (deriv q c)
  | star r, c => seq (deriv r c) (star r)

/-- Matching of a whole text against a pattern. -/
def rmatch : Regex → List Char → Bool
  | r, [] => nullable r
  | r, c :: cs => rmatch (deriv r c) cs

/-- The call `regex.test(s)` for a pattern anchored with `^` and `$`. -/
def test (r : Regex) (s : String) : Bool := rmatch r s.data

/-- The language of a pattern. -/
inductive Matches : Regex → List Char → Prop where
  | eps : Matches eps []
  | cls {p : Char → Bool} {c : Char} : p c = true → Matches (cls p) [c]
  | seq {r q : Regex} {s t : List Char} : Matches r s → Matches q t → Matches (seq r q) (s ++ t)
  | altL {r q : Regex} {s : List Char} : Matches r s → Matches (alt r q) s
  | altR {r q : Regex} {s : List Char} : Matches q s → Matches (alt r q) s
  | starNil {r : Regex} : Matches (star r) []
  | starCons {r : Regex} {s t : List Char} : Matches r s → Matches (star r) t → Matches (star r) (s ++ t)

end Regex

/-- The character class `[^\s@]`. -/
def okEmailChar (c : Char) : Bool := !(isJsWhitespace c || c == '@')

/-- The pattern `/^[^\s@]+@[^\s@]+\.[^\s@]+$/`. -/
def emailRegex : Regex :=
  let part := Regex.plus (Regex.cls okEmailChar)
  Regex.seq part (Regex.seq (Regex.lit '@') (Regex.seq part (Regex.seq (Regex.lit '.') part)))

/-- The method `isValidEmail(email)`. -/
def isValidEmail (email : String) : Bool := Regex.test emailRegex email

/-! ### Document, storage and platform -/

/-- A form control of the page.  `name = ""` stands for a missing `name` attribute and
`id = ""` for a missing `id`. -/
structure Field where
  id : String
  name : String
  type : String
  value : String
  checked : Bool
  required : Bool
  disabled : Bool
  inForm : Bool
  defaultValue : String
  defaultChecked : Bool
  errorClass : Bool
deriving DecidableEq

/-- An element that shows a validation message (looked up as `<field id>-error`). -/
structure ErrorElement where
  id : String
  textContent : String
  shown : Bool
  errorMessageClass : Bool
deriving DecidableEq

/-- A signature pad: `image = none` is an empty pad, `some d` a pad whose `toDataURL()`
is `d`. -/
structure SignaturePad where
  image : Option String
deriving DecidableEq

namespace SignaturePad

/-- The call `pad.isEmpty()`. -/
def isEmpty (p : SignaturePad) : Bool := p.image.isNone

/-- The call `pad.toDataURL()`; the code calls it on pads that are not empty only. -/
def toDataURL (p : SignaturePad) : String := p.image.getD ""

/-- The call `pad.clear()`. -/
def clear (_ : SignaturePad) : SignaturePad := { image := none }

/-- The call `pad.fromDataURL(d)`: the pad then shows the image `d`. -/
def fromDataURL (_ : SignaturePad) (d : String) : SignaturePad := { image := some d }

end SignaturePad

/-- A value of a ReportRecord: a string or an array of strings. -/
inductive Value where
  | str (s : String) : Value
  | arr (xs : List String) : Value
deriving DecidableEq

/-- A ReportRecord in insertion order of its keys. -/
abbrev ReportRecord := List (String × Value)

namespace Value

/-- String conversion of a value, as an assignment to `element.value` performs it. -/
def toText : Value → String
  | str s => s
  | arr xs => String.intercalate "," xs

/-- Truthiness: every array and every non-empty string. -/
def truthy : Value → Bool
  | str s => s != ""
  | arr _ => true

end Value

/-- What the platform supplies to one run of a handler. -/
structure Env where
  /-- The value of `Date.now()`. -/
  now : Int
  /-- The value of `new Date().getFullYear()`. -/
  localYear : Int
  /-- The value of `new Date().getMonth()`, counted from zero. -/
  localMonth : Nat
  /-- The value of `new Date().getDate()`. -/
  localDay : Nat
  /-- The value of `Math.random()`. -/
  random : Number
  /-- The text `new Date().toISOString().split("T")[0]`. -/
  isoDate : String
  /-- The same text for the date moved on by `setMonth(getMonth() + 3)`. -/
  isoDueDate : String
  /-- The text `new Date().toISOString()`. -/
  isoTimestamp : String
  /-- The answer given to `confirm(...)`. -/
  confirm : Bool
  /-- The time value of `new Date(s)`; `none` is an invalid date. -/
  dateParse : String → Option Int
  /-- The function `JSON.stringify` on records. -/
  jsonStringify : ReportRecord → String
  /-- The function `JSON.parse`, `none` when it throws. -/
  jsonParse : String → Option ReportRecord
  /-- The message of the TypeError raised by writing a property of `null`. -/
  nullErrorMessage : String

/-- The controller together with the page and storage it acts on.  `writes` is a trace of
the `localStorage.setItem` calls made so far, oldest first. -/
structure App where
  engineerSignaturePad : Option SignaturePad
  customerSignaturePad : Option SignaturePad
  isSubmitting : Bool
  fields : List Field
  errors : List ErrorElement
  storage : List (String × String)
  writes : List (String × String)
  messages : List (String × String)
  loading : Bool
deriving DecidableEq

/-! ### Storage -/

/-- The call `localStorage.getItem(key)` on the stored pairs. -/
def getItem (key : String) : List (String × String) → Option String
  | [] => none
  | (k, v) :: rest => if k = key then some v else getItem key rest

/-- The stored pairs after `key` has been set to `value`. -/
def putItem (key value : String) : List (String × String) → List (String × String)
  | [] => [(key, value)]
  | (k, v) :: rest => if k = key then (k, value) :: rest else (k, v) :: putItem key value rest

/-- The stored pairs without `key`. -/
def dropItem (key : String) : List (String × String) → List (String × String)
  | [] => []
  | (k, v) :: rest => if k = key then dropItem key rest else (k, v) :: dropItem key rest

/-- The call `localStorage.setItem(key, value)`. -/
def setItem (key value : String) (app : App) : App :=
  { app with storage := putItem key value app.storage, writes := app.writes ++ [(key, value)] }

/-- The call `localStorage.removeItem(key)`. -/
def removeItem (key : String) (app : App) : App :=
  { app with storage := dropItem key app.storage }

/-! ### Element lookup -/

/-- Position of the first element that satisfies `p`. -/
def indexWhere (p : Field → Bool) : List Field → Option Nat
  | [] => none
  | f :: rest => if p f then some 0 else (indexWhere p rest).map (· + 1)

/-- Apply `g` to the element at a position. -/
def modifyAt (g : Field → Field) : Nat → List Field → List Field
  | _, [] => []
  | 0, f :: rest => g f :: rest
  | i + 1, f :: rest => f :: modifyAt g i rest

/-- The call `document.getElementById(key)` among the controls, as a position in the
document. -/
def getElementById (fields : List Field) (key : String) : Option Nat :=
  if key = "" then none else indexWhere (fun f => f.id == key) fields

/-- Assignment `element.value = v`. -/
def setValue (v : String) (f : Field) : Field := { f with value := v }

/-- The value of the element with the given id. -/
def valueById (fields : List Field) (key : String) : Option String :=
  (getElementById fields key).bind (fun i => (fields.get? i).map (·.value))

/-- Assignment `document.getElementById(key).value = v`; `none` when there is no such
element (a TypeError). -/
def setValueById (fields : List Field) (key v : String) : Option (List Field) :=
  (getElementById fields key).map (fun i => modifyAt (setValue v) i fields)

/-- Whether `key` can stand between the quotes of the selector `[name="key"]`. -/
def selectorSafe (key : String) : Bool :=
  key.data.all (fun c => !(c == '"' || c == '\\' || c == '\n' || c == '\r' || c.toNat == 12))

/-- The call `document.querySelector('[name="key"]')`, as a position in the document. -/
def querySelectorName (fields : List Field) (key : String) : Option Nat :=
  if key = "" then none else indexWhere (fun f => f.name == key) fields

/-! ### Messages -/

/-- The method `showMessage(message, type)`; the timed removal is not represented. -/
def showMessage (message type : String) (app : App) : App :=
  { app with messages := app.messages ++ [(message, type)] }

/-- The method `showLoading(show)`. -/
def showLoading (flag : Bool) (app : App) : App := { app with loading := flag }

/-! ### Defaults -/

/-- The method `generateReportNumber()`. -/
def generateReportNumber (env : Env) : String :=
  let year := intToString env.localYear
  let month := padStart (natToString (env.localMonth + 1)) 2 '0'
  let day := padStart (natToString env.localDay) 2 '0'
  let random := padStart (Number.toText (Number.floor (Number.mul env.random (Number.ofNat 1000)))) 3 '0'
  "SR-" ++ year ++ month ++ day ++ "-" ++ random

/-- One step of `setDefaultValues()`: fill the element `key` when it exists and is empty. -/
def seedDefault (key v : String) (fields : List Field) : List Field :=
  match getElementById fields key with
  | some i => modifyAt (fun f => if f.value = "" then setValue v f else f) i fields
  | none => fields

/-- The method `setDefaultValues()`. -/
def setDefaultValues (env : Env) (app : App) : App :=
  let f₁ := seedDefault "reportNo" (generateReportNumber env) app.fields
  let f₂ := seedDefault "dateDone" env.isoDate f₁
  let f₃ := seedDefault "dateDue" env.isoDueDate f₂
  { app with fields := f₃ }

/-- The method `calculateTotalCurrent()`. -/
def calculateTotalCurrent (app : App) : App :=
  let compressorCurrent :=
    Number.orZero (match valueById app.fields "compressorCurrent" with
      | some v => parseFloat v
      | none => Number.nan)
  let fanPumpCurrent :=
    Number.orZero (match valueById app.fields "fanPumpCurrent" with
      | some v => parseFloat v
      | none => Number.nan)
  match getElementById app.fields "totalCurrent" with
  | some i =>
    let total := Number.add compressorCurrent fanPumpCurrent
    let text := if Number.gtZero total then Number.toFixed1 total else ""
    { app with fields := modifyAt (setValue text) i app.fields }
  | none => app

/-! ### Validation -/

/-- The validity and message computed by `validateField(field)` before the page is
updated. -/
def fieldVerdict (env : Env) (field : Field) : Bool × String :=
  let r₁ : Bool × String :=
    if field.required && (jsTrim field.value == "") then (false, "This field is required")
    else (true, "")
  let r₂ : Bool × String :=
    if field.type == "email" && field.value != "" && !isValidEmail field.value then
      (false, "Please enter a valid email address")
    else r₁
  if field.type == "date" && field.value != "" then
    let future := match env.dateParse field.value with
      | some selected => decide (selected > env.now)
      | none => false
    if field.id == "dateDone" && future then (false, "Date done cannot be in the future")
    else r₂
  else r₂

/-- Write a message into the first error element with the given id, if there is one. -/
def setErrorText (key msg : String) (isValid : Bool) : List ErrorElement → List ErrorElement
  | [] => []
  | e :: rest =>
    if e.id = key then { e with textContent := msg, shown := !isValid } :: rest
    else e :: setErrorText key msg isValid rest

/-- The call `document.getElementById(key)` among the error elements. -/
def errorElementById (key : String) : List ErrorElement → Option ErrorElement
  | [] => none
  | e :: rest => if e.id = key then some e else errorElementById key rest

/-- The method `validateField(field)`: the result, the error elements and the field
afterwards. -/
def validateField (env : Env) (errors : List ErrorElement) (field : Field) :
    Bool × List ErrorElement × Field :=
  let verdict := fieldVerdict env field
  let errors₁ := setErrorText (field.id ++ "-error") verdict.2 verdict.1 errors
  (verdict.1, errors₁, { field with errorClass := !verdict.1 })

/-- The loop of `validateForm()` over `form.querySelectorAll("[required]")`. -/
def validateRequired (env : Env) : List Field → List ErrorElement → Bool × List ErrorElement × List Field
  | [], errors => (true, errors, [])
  | f :: rest, errors =>
    if f.inForm && f.required then
      let r := validateField env errors f
      let rs := validateRequired env rest r.2.1
      (r.1 && rs.1, rs.2.1, r.2.2 :: rs.2.2)
    else
      let rs := validateRequired env rest errors
      (rs.1, rs.2.1, f :: rs.2.2)

/-- The method `validateForm()`: the result and the state afterwards. -/
def validateForm (env : Env) (app : App) : Bool × App :=
  let r := validateRequired env app.fields app.errors
  let app₁ := { app with fields := r.2.2, errors := r.2.1 }
  match app.engineerSignaturePad with
  | some pad =>
    if pad.isEmpty then (false, showMessage "Engineer signature is required" "error" app₁)
    else (r.1, app₁)
  | none => (r.1, app₁)

/-! ### Signatures -/

/-- The method `clearSignature(type)`; `Except.error` carries the state at the point where
a TypeError is raised. -/
def clearSignature (type : String) (app : App) : Except App App :=
  if type = "engineer" ∧ app.engineerSignaturePad.isSome then
    let app₁ := { app with engineerSignaturePad := app.engineerSignaturePad.map SignaturePad.clear }
    match setValueById app₁.fields "engineerSignature" "" with
    | some fs => Except.ok { app₁ with fields := fs }
    | none => Except.error app₁
  else if type = "customer" ∧ app.customerSignaturePad.isSome then
    let app₁ := { app with customerSignaturePad := app.customerSignaturePad.map SignaturePad.clear }
    match setValueById app₁.fields "customerSignature" "" with
    | some fs => Except.ok { app₁ with fields := fs }
    | none => Except.error app₁
  else Except.ok app

/-- One half of `saveSignatures()`: copy a pad that is not empty into its hidden field. -/
def saveSignature (pad : Option SignaturePad) (key : String) (app : App) : Except App App :=
  match pad with
  | some p =>
    if !p.isEmpty then
      match setValueById app.fields key p.toDataURL with
      | some fs => Except.ok { app with fields := fs }
      | none => Except.error app
    else Except.ok app
  | none => Except.ok app

/-- The method `saveSignatures()`. -/
def saveSignatures (app : App) : Except App App :=
  match saveSignature app.engineerSignaturePad "engineerSignature" app with
  | Except.ok app₁ => saveSignature app₁.customerSignaturePad "customerSignature" app₁
  | Except.error app₁ => Except.error app₁

/-! ### Form data -/

/-- Whether a control contributes an entry to `new FormData(form)`. -/
def submits (f : Field) : Bool :=
  f.inForm && !f.disabled && f.name != "" &&
    !(f.type == "submit" || f.type == "button" || f.type == "reset" || f.type == "image") &&
    (!(f.type == "checkbox" || f.type == "radio") || f.checked)

/-- The entry list of `new FormData(form)`. -/
def formEntries (fields : List Field) : List (String × String) :=
  (fields.filter submits).map (fun f => (f.name, f.value))

/-- The property access `data[key]`; `none` is `undefined`. -/
def lookupKey (key : String) : ReportRecord → Option Value
  | [] => none
  | (k, v) :: rest => if k = key then some v else lookupKey key rest

/-- Assignment `data[key] = v`: an existing key keeps its place. -/
def assignKey (key : String) (v : Value) : ReportRecord → ReportRecord
  | [] => [(key, v)]
  | (k, w) :: rest => if k = key then (k, v) :: rest else (k, w) :: assignKey key v rest

/-- The body of the loop in `getFormData()` for one entry. -/
def addEntry (data : ReportRecord) (entry : String × String) : ReportRecord :=
  match lookupKey entry.1 data with
  | some (Value.arr xs) => assignKey entry.1 (Value.arr (xs ++ [entry.2])) data
  | some (Value.str s) =>
    if s != "" then assignKey entry.1 (Value.arr [s, entry.2]) data
    else assignKey entry.1 (Value.str entry.2) data
  | none => assignKey entry.1 (Value.str entry.2) data

/-- The method `getFormData()`. -/
def getFormData (env : Env) (app : App) : ReportRecord :=
  let data := (formEntries app.fields).foldl addEntry []
  assignKey "version" (Value.str "1.0") (assignKey "timestamp" (Value.str env.isoTimestamp) data)

/-- The index a key denotes when it is a canonical array index (`"0"`, `"1"`, ...). -/
def arrayIndex (key : String) : Option Nat :=
  if !key.data.isEmpty && key.data.all isDigit && natToString (digitsToNat key.data) = key &&
      decide (digitsToNat key.data < 4294967295) then
    some (digitsToNat key.data)
  else none

/-- Insertion into an ascending list. -/
def insertSorted (n : Nat) : List Nat → List Nat
  | [] => [n]
  | m :: rest => if n ≤ m then n :: m :: rest else m :: insertSorted n rest

/-- The call `Object.keys(data)`: array-index keys in ascending order, then the other
keys in insertion order. -/
def objectKeys (data : ReportRecord) : List String :=
  let keys := data.map Prod.fst
  ((keys.filterMap arrayIndex).foldr insertSorted []).map natToString ++
    keys.filter (fun k => (arrayIndex k).isNone)

/-! ### Restoring a record -/

/-- Assignment to `element.checked`; checking a radio button unchecks the other buttons of
its group. -/
def setChecked (i : Nat) (b : Bool) (fields : List Field) : List Field :=
  match fields.get? i with
  | some el =>
    let fs := modifyAt (fun f => { f with checked := b }) i fields
    if el.type == "radio" && b && el.name != "" then
      fs.enum.map (fun (p : Nat × Field) =>
        if p.1 != i && p.2.type == "radio" && p.2.name == el.name && p.2.inForm == el.inForm then
          { p.2 with checked := false }
        else p.2)
    else fs
  | none => fields

/-- The body of the loop in `populateForm(data)` for one key; `none` when the selector is
malformed and `querySelector` throws.  Backslash escapes in a key are not interpreted:
such a key is treated as malformed. -/
def populateKey (data : ReportRecord) (fields : List Field) (key : String) : Option (List Field) :=
  let target : Option (Option Nat) :=
    match getElementById fields key with
    | some i => some (some i)
    | none => if selectorSafe key then some (querySelectorName fields key) else none
  match target with
  | none => none
  | some none => some fields
  | some (some i) =>
    match fields.get? i, lookupKey key data with
    | some el, some v =>
      if el.type == "checkbox" then
        some (setChecked i (match v with
          | Value.arr xs => xs.contains el.value
          | Value.str s => s == el.value) fields)
      else if el.type == "radio" then
        some (setChecked i (match v with
          | Value.arr _ => false
          | Value.str s => s == el.value) fields)
      else some (modifyAt (setValue v.toText) i fields)
    | _, _ => some fields

/-- The loop of `populateForm(data)` over the keys; `Except.error` carries the fields at the
point where an exception is raised. -/
def populateKeys (data : ReportRecord) : List String → List Field → Except (List Field) (List Field)
  | [], fields => Except.ok fields
  | key :: rest, fields =>
    match populateKey data fields key with
    | some fs => populateKeys data rest fs
    | none => Except.error fields

/-- Restore one pad from `data[key]` when that value is truthy and the pad exists. -/
def restorePad (data : ReportRecord) (key : String) (pad : Option SignaturePad) : Option SignaturePad :=
  match lookupKey key data, pad with
  | some v, some p => if v.truthy then some (p.fromDataURL v.toText) else some p
  | _, p => p

/-- The method `populateForm(data)`; `Except.error` carries the state at the point where
an exception is raised. -/
def populateForm (data : ReportRecord) (app : App) : Except App App :=
  match populateKeys data (objectKeys data) app.fields with
  | Except.ok fs =>
    Except.ok { app with
      fields := fs
      engineerSignaturePad := restorePad data "engineerSignature" app.engineerSignaturePad
      customerSignaturePad := restorePad data "customerSignature" app.customerSignaturePad }
  | Except.error fs => Except.error { app with fields := fs }

/-! ### Handlers -/

/-- The `try` block of `handleFormSubmit`: the state reached and, when an exception is
raised, its message. -/
def submitAttempt (env : Env) (app : App) : App × Option String :=
  let v := validateForm env app
  if !v.1 then (v.2, some "Please fix the validation errors before submitting")
  else
    match saveSignatures v.2 with
    | Except.error app₁ => (app₁, some env.nullErrorMessage)
    | Except.ok app₁ =>
      let formData := getFormData env app₁
      let app₂ := setItem "serviceReport" (env.jsonStringify formData) app₁
      let app₃ := setItem "serviceReportTimestamp" (intToString env.now) app₂
      (showMessage "Report saved successfully!" "success" app₃, none)

/-- The part of `handleFormSubmit` that runs once the in-flight guard has been passed and
the flag set: the `try`, `catch` and `finally` blocks. -/
def submitBody (env : Env) (app : App) : App :=
  let r := submitAttempt env app
  let app₁ := match r.2 with
    | some msg => showMessage (if msg != "" then msg else "Error saving report") "error" r.1
    | none => r.1
  showLoading false { app₁ with isSubmitting := false }

/-- The state of a submission in flight: the guard has been passed, the flag is set and
the loading overlay is shown. -/
def submitBegin (app : App) : App := showLoading true { app with isSubmitting := true }

/-- The method `handleFormSubmit(e)`. -/
def handleFormSubmit (env : Env) (app : App) : App :=
  if app.isSubmitting then app else submitBody env (submitBegin app)

/-- Whether the `value` property of a control of this type reflects its `value`
attribute, so that `form.reset()` leaves the value as it is. -/
def valueIsAttribute (type : String) : Bool :=
  type == "hidden" || type == "checkbox" || type == "radio" || type == "submit" ||
    type == "image" || type == "reset" || type == "button"

/-- The call `form.reset()`. -/
def resetForm (fields : List Field) : List Field :=
  fields.map (fun f =>
    if !f.inForm then f
    else if valueIsAttribute f.type then { f with checked := f.defaultChecked }
    else { f with value := f.defaultValue, checked := f.defaultChecked })

/-- The method `handleClearForm()`; when a TypeError is raised the handler stops in the
state reached. -/
def handleClearForm (env : Env) (app : App) : App :=
  if env.confirm then
    let app₁ := { app with fields := resetForm app.fields }
    match clearSignature "engineer" app₁ with
    | Except.error a => a
    | Except.ok app₂ =>
      match clearSignature "customer" app₂ with
      | Except.error a => a
      | Except.ok app₃ =>
        let app₄ := removeItem "serviceReportTimestamp" (removeItem "serviceReport" app₃)
        let app₅ := setDefaultValues env app₄
        let app₆ := { app₅ with
          errors := app₅.errors.map (fun e =>
            if e.errorMessageClass then { e with shown := false, textContent := "" } else e)
          fields := app₅.fields.map (fun f => { f with errorClass := false }) }
        showMessage "Form cleared successfully" "success" app₆
  else app

/-- The method `autoSave()`. -/
def autoSave (env : Env) (app : App) : App :=
  match saveSignatures app with
  | Except.error a => a
  | Except.ok app₁ =>
    let formData := getFormData env app₁
    setItem "serviceReportDraftTimestamp" (intToString env.now)
      (setItem "serviceReportDraft" (env.jsonStringify formData) app₁)

/-- The method `loadSavedData()`: whether the draft was offered (the `confirm` dialog was
shown) and the state afterwards. -/
def loadSavedData (env : Env) (app : App) : Bool × App :=
  match getItem "serviceReportDraft" app.storage with
  | none => (false, app)
  | some savedData =>
    if savedData = "" then (false, app)
    else
      match env.jsonParse savedData with
      | none => (false, app)
      | some data =>
        match getItem "serviceReportDraftTimestamp" app.storage with
        | none => (false, app)
        | some timestamp =>
          let fresh := match parseInt timestamp with
            | some t => decide (env.now - t < 24 * 60 * 60 * 1000)
            | none => false
          if timestamp != "" && fresh then
            if env.confirm then
              match populateForm data app with
              | Except.ok app₁ => (true, showMessage "Draft restored successfully" "success" app₁)
              | Except.error app₁ => (true, app₁)
            else (true, app)
          else (false, app)

/-! ### Reference predicates of the specification -/

/-- The class `\d`. -/
def isDigitClass : Regex := Regex.cls isDigit

/-- The pattern `SR-\d{8}-\d{3}` of the specification, anchored at both ends. -/
def reportNumberRegex : Regex :=
  Regex.seq (Regex.lit 'S') (Regex.seq (Regex.lit 'R') (Regex.seq (Regex.lit '-')
    (Regex.seq (Regex.count 8 isDigitClass) (Regex.seq (Regex.lit '-') (Regex.count 3 isDigitClass)))))

/-- The shape `local@domain.tld` in the words of the specification: a non-empty local part,
one `@`, a domain in which a dot separates two non-empty parts, and neither white space
nor a further `@` anywhere. -/
def EmailShape (s : String) : Prop :=
  ∃ loc dom : List Char, s.data = loc ++ '@' :: dom ∧ loc ≠ [] ∧
    (∀ c ∈ loc ++ dom, isJsWhitespace c = false ∧ c ≠ '@') ∧
    ∃ d₁ d₂ : List Char, dom = d₁ ++ '.' :: d₂ ∧ d₁ ≠ [] ∧ d₂ ≠ []

/-- The engineer's signature surface holds a signature: the pad exists and is not empty. -/
def engineerSigned (app : App) : Bool :=
  match app.engineerSignaturePad with
  | some pad => !pad.isEmpty
  | none => false

/-- An empty copy of a form: every checkbox and radio button unchecked, every other
control blank. -/
def emptyCopy (app : App) : App :=
  { app with
    fields := app.fields.map (fun f =>
      if f.type == "checkbox" || f.type == "radio" then { f with checked := false }
      else { f with value := "" }) }

/-- The round trip of the specification: `populateForm(getFormData())` on an empty copy. -/
def roundTrip (env : Env) (app : App) : Except App App :=
  populateForm (getFormData env app) (emptyCopy app)

/-- The checked states of the controls of a round trip's result. -/
def checkedStates : Except App App → List Bool
  | Except.ok app => app.fields.map (fun f => f.checked)
  | Except.error app => app.fields.map (fun f => f.checked)

/-- The sum of the two current inputs, an input that reads as NaN or zero counted as
zero. -/
def currentSum (a b : String) : Number :=
  Number.add (Number.orZero (parseFloat a)) (Number.orZero (parseFloat b))

/-! ### Sample inputs -/

/-- A platform state used to evaluate the handlers on concrete inputs. -/
def sampleEnv : Env :=
  { now := 1700000000000, localYear := 2024, localMonth := 0, localDay := 5,
    random := Number.fin false 1 (-1), isoDate := "2024-01-05", isoDueDate := "2024-04-05",
    isoTimestamp := "2024-01-05T10:00:00.000Z", confirm := true,
    dateParse := fun _ => none, jsonStringify := fun _ => "record", jsonParse := fun _ => some [],
    nullErrorMessage := "Cannot set properties of null" }

/-- A control inside the form, not disabled, with empty defaults. -/
def mkField (id name type value : String) (checked required : Bool) : Field :=
  { id := id, name := name, type := type, value := value, checked := checked,
    required := required, disabled := false, inForm := true, defaultValue := "",
    defaultChecked := false, errorClass := false }

/-- An error element that shows nothing. -/
def mkError (id : String) : ErrorElement :=
  { id := id, textContent := "", shown := false, errorMessageClass := true }

/-- A filled-in form with the engineer's signature drawn and a stored draft. -/
def sampleApp : App :=
  { engineerSignaturePad := some { image := some "data:image/png;base64,AAAA" }
    customerSignaturePad := some { image := none }
    isSubmitting := false
    fields :=
      [mkField "reportNo" "reportNo" "text" "SR-20240105-500" false true,
       mkField "customerEmail" "customerEmail" "email" "a@b.co" false true,
       mkField "engineerSignature" "engineerSignature" "hidden" "" false false,
       mkField "customerSignature" "customerSignature" "hidden" "" false false]
    errors := [mkError "reportNo-error", mkError "customerEmail-error"]
    storage := [("serviceReportDraft", "draft"), ("serviceReportDraftTimestamp", "1699990000000")]
    writes := []
    messages := []
    loading := false }

/-- The sample form with the report number left blank (white space only). -/
def blankReportNoApp : App :=
  { sampleApp with
    fields :=
      [mkField "reportNo" "reportNo" "text" "  " false true,
       mkField "customerEmail" "customerEmail" "email" "a@b.co" false true,
       mkField "engineerSignature" "engineerSignature" "hidden" "" false false,
       mkField "customerSignature" "customerSignature" "hidden" "" false false] }

/-- A required email field that holds one no-break space. -/
def nbspEmailField : Field := mkField "customerEmail" "customerEmail" "email" "\u00a0" false true

/-- The sample form with the email field holding one no-break space. -/
def nbspEmailApp : App :=
  { sampleApp with
    fields :=
      [mkField "reportNo" "reportNo" "text" "SR-20240105-500" false true,
       nbspEmailField,
       mkField "engineerSignature" "engineerSignature" "hidden" "" false false,
       mkField "customerSignature" "customerSignature" "hidden" "" false false] }

/-- The sample form on a page where the signature pads could not be set up. -/
def noPadApp : App :=
  { sampleApp with engineerSignaturePad := none, customerSignaturePad := none }

/-- An email field that is not required and has been left empty. -/
def optionalEmailField : Field := mkField "contactEmail" "contactEmail" "email" "" false false

/-- The sample form after a submission and an auto-save: both snapshots are stored. -/
def storedApp : App :=
  { sampleApp with
    storage :=
      [("serviceReport", "report"), ("serviceReportTimestamp", "1699980000000"),
       ("serviceReportDraft", "draft"), ("serviceReportDraftTimestamp", "1699990000000")] }

/-- A form with a group of two checkboxes named `serviceType`, both checked. -/
def checkboxGroupApp : App :=
  { sampleApp with
    fields :=
      [mkField "serviceInstall" "serviceType" "checkbox" "install" true false,
       mkField "serviceRepair" "serviceType" "checkbox" "repair" true false] }

/-- A form with a group of two radio buttons named `result`, the second one selected. -/
def radioGroupApp : App :=
  { sampleApp with
    fields :=
      [mkField "resultPass" "result" "radio" "pass" false false,
       mkField "resultFail" "result" "radio" "fail" true false] }

/-- A form with the two current inputs holding `a` and `b` and the total field empty. -/
def currentApp (a b : String) : App :=
  { sampleApp with
    fields :=
      [mkField "compressorCurrent" "compressorCurrent" "number" a false false,
       mkField "fanPumpCurrent" "fanPumpCurrent" "number" b false false,
       mkField "totalCurrent" "totalCurrent" "number" "" false false] }

/-! ## Part II. Theorems -/

/-! ### Regular expressions: the matcher decides the language -/

namespace Regex

theorem matches_empty_iff {x : List Char} : Matches empty x ↔ False := by
  constructor
  · intro h; cases h
  · intro h; exact h.elim

theorem matches_eps_iff {x : List Char} : Matches eps x ↔ x = [] := by
  constructor
  · intro h; cases h; rfl
  · rintro rfl; exact Matches.eps

theorem matches_cls_iff {p : Char → Bool} {x : List Char} :
    Matches (cls p) x ↔ ∃ c, x = [c] ∧ p c = true := by
  constructor
  · intro h; cases h with
    | cls hc => exact ⟨_, rfl, hc⟩
  · rintro ⟨c, rfl, hc⟩; exact Matches.cls hc

theorem matches_seq_iff {r q : Regex} {x : List Char} :
    Matches (seq r q) x ↔ ∃ s t, x = s ++ t ∧ Matches r s ∧ Matches q t := by
  constructor
  · intro h; cases h with
    | seq h₁ h₂ => exact ⟨_, _, rfl, h₁, h₂⟩
  · rintro ⟨s, t, rfl, h₁, h₂⟩; exact Matches.seq h₁ h₂

theorem matches_alt_iff {r q : Regex} {x : List Char} :
    Matches (alt r q) x ↔ Matches r x ∨ Matches q x := by
  constructor
  · intro h; cases h with
    | altL h => exact Or.inl h
    | altR h => exact Or.inr h
  · rintro (h | h)
    · exact Matches.altL h
    · exact Matches.altR h

theorem nullable_of_matches {r : Regex} {x : List Char} (h : Matches r x) :
    x = [] → nullable r = true := by
  induction h with
  | eps => intro _; rfl
  | cls _ => intro hx; cases hx
  | seq _ _ ih₁ ih₂ =>
    intro hx
    obtain ⟨hs, ht⟩ := List.append_eq_nil.mp hx
    simp [nullable, ih₁ hs, ih₂ ht]
  | altL _ ih => intro hx; simp [nullable, ih hx]
  | altR _ ih => intro hx; simp [nullable, ih hx]
  | starNil => intro _; rfl
  | starCons _ _ _ _ => intro _; rfl

theorem matches_nil_of_nullable : ∀ {r : Regex}, nullable r = true → Matches r []
  | empty, h => by simp [nullable] at h
  | eps, _ => Matches.eps
  | cls _, h => by simp [nullable] at h
  | seq r q, h => by
    simp only [nullable, Bool.and_eq_true] at h
    exact Matches.seq (s := []) (t := []) (matches_nil_of_nullable h.1) (matches_nil_of_nullable h.2)
  | alt r q, h => by
    simp only [nullable, Bool.or_eq_true] at h
    rcases h with h | h
    · exact Matches.altL (matches_nil_of_nullable h)
    · exact Matches.altR (matches_nil_of_nullable h)
  | star _, _ => Matches.starNil

theorem matches_nil_iff {r : Regex} : Matches r [] ↔ nullable r = true :=
  ⟨fun h => nullable_of_matches h rfl, matches_nil_of_nullable⟩

theorem deriv_of_matches {r : Regex} {y : List Char} (h : Matches r y) (c : Char) :
    ∀ x, y = c :: x → Matches (deriv r c) x := by
  induction h with
  | eps => intro x hx; cases hx
  | @cls p d hd =>
    intro x hx
    cases hx
    simp only [deriv, hd, if_true]
    exact Matches.eps
  | @seq r q s t h₁ h₂ ih₁ ih₂ =>
    intro x hx
    cases s with
    | nil =>
      have hn : nullable r = true := nullable_of_matches h₁ rfl
      simp only [deriv, hn, if_true]
      exact Matches.altR (ih₂ x hx)
    | cons d s =>
      simp only [List.cons_append, List.cons.injEq] at hx
      obtain ⟨rfl, rfl⟩ := hx
      have hs : Matches (seq (deriv r d) q) (s ++ t) := Matches.seq (ih₁ s rfl) h₂
      simp only [deriv]
      split
      · exact Matches.altL hs
      · exact hs
  | altL _ ih => intro x hx; exact Matches.altL (ih x hx)
  | altR _ ih => intro x hx; exact Matches.altR (ih x hx)
  | starNil => intro x hx; cases hx
  | @starCons r s t h₁ h₂ ih₁ ih₂ =>
    intro x hx
    cases s with
    | nil => exact ih₂ x hx
    | cons d s =>
      simp only [List.cons_append, List.cons.injEq] at hx
      obtain ⟨rfl, rfl⟩ := hx
      exact Matches.seq (ih₁ s rfl) h₂

theorem matches_of_deriv : ∀ {r : Regex} {c : Char} {x : List Char},
    Matches (deriv r c) x → Matches r (c :: x)
  | empty, _, _, h => by simp only [deriv] at h; cases h
  | eps, _, _, h => by simp only [deriv] at h; cases h
  | cls p, c, x, h => by
    simp only [deriv] at h
    split at h
    · next hp =>
      rw [matches_eps_iff.mp h]
      exact Matches.cls hp
    · cases h
  | seq r q, c, x, h => by
    simp only [deriv] at h
    have key : ∀ y, Matches (seq (deriv r c) q) y → Matches (seq r q) (c :: y) := by
      intro y hy
      obtain ⟨s, t, rfl, hs, ht⟩ := matches_seq_iff.mp hy
      exact Matches.seq (s := c :: s) (matches_of_deriv hs) ht
    split at h
    · next hn =>
      rcases matches_alt_iff.mp h with h | h
      · exact key x h
      · exact Matches.seq (s := []) (matches_nil_of_nullable hn) (matches_of_deriv h)
    · exact key x h
  | alt r q, c, x, h => by
    simp only [deriv] at h
    rcases matches_alt_iff.mp h with h | h
    · exact Matches.altL (matches_of_deriv h)
    · exact Matches.altR (matches_of_deriv h)
  | star r, c, x, h => by
    simp only [deriv] at h
    obtain ⟨s, t, rfl, hs, ht⟩ := matches_seq_iff.mp h
    exact Matches.starCons (s := c :: s) (matches_of_deriv hs) ht

theorem rmatch_iff_matches : ∀ (x : List Char) (r : Regex), rmatch r x = true ↔ Matches r x
  | [], r => by simp only [rmatch]; exact matches_nil_iff.symm
  | c :: cs, r => by
    simp only [rmatch]
    rw [rmatch_iff_matches cs (deriv r c)]
    exact ⟨matches_of_deriv, fun h => deriv_of_matches h c cs rfl⟩

theorem matches_star_cls {p : Char → Bool} {r : Regex} {x : List Char} (h : Matches r x) :
    r = star (cls p) → ∀ c ∈ x, p c = true := by
  induction h with
  | eps => intro hr; cases hr
  | cls _ => intro hr; cases hr
  | seq _ _ _ _ => intro hr; cases hr
  | altL _ _ => intro hr; cases hr
  | altR _ _ => intro hr; cases hr
  | starNil => intro _ c hc; simp at hc
  | starCons h₁ _ _ ih₂ =>
    intro hr c hc
    cases hr
    rcases List.mem_append.mp hc with hc | hc
    · obtain ⟨d, rfl, hd⟩ := matches_cls_iff.mp h₁
      simp only [List.mem_singleton] at hc
      rw [hc]; exact hd
    · exact ih₂ rfl c hc

theorem matches_star_cls_iff {p : Char → Bool} {x : List Char} :
    Matches (star (cls p)) x ↔ ∀ c ∈ x, p c = true := by
  constructor
  · intro h; exact matches_star_cls h rfl
  · intro h
    induction x with
    | nil => exact Matches.starNil
    | cons c t ih =>
      exact Matches.starCons (s := [c]) (Matches.cls (h c (List.mem_cons_self c t)))
        (ih (fun d hd => h d (List.mem_cons_of_mem c hd)))

theorem matches_plus_cls_iff {p : Char → Bool} {x : List Char} :
    Matches (plus (cls p)) x ↔ x ≠ [] ∧ ∀ c ∈ x, p c = true := by
  unfold plus
  rw [matches_seq_iff]
  constructor
  · rintro ⟨s, t, rfl, hs, ht⟩
    obtain ⟨d, rfl, hd⟩ := matches_cls_iff.mp hs
    refine ⟨by simp, ?_⟩
    intro c hc
    simp only [List.singleton_append, List.mem_cons] at hc
    rcases hc with rfl | hc
    · exact hd
    · exact matches_star_cls_iff.mp ht c hc
  · rintro ⟨hne, hall⟩
    cases x with
    | nil => exact absurd rfl hne
    | cons c t =>
      exact ⟨[c], t, rfl, Matches.cls (hall c (List.mem_cons_self c t)),
        matches_star_cls_iff.mpr (fun d hd => hall d (List.mem_cons_of_mem c hd))⟩

theorem matches_lit_iff {c : Char} {x : List Char} : Matches (lit c) x ↔ x = [c] := by
  unfold lit
  rw [matches_cls_iff]
  constructor
  · rintro ⟨d, rfl, hd⟩
    simp only [beq_iff_eq] at hd
    rw [hd]
  · rintro rfl
    exact ⟨c, rfl, by simp⟩

end Regex

theorem okEmailChar_iff (c : Char) : okEmailChar c = true ↔ isJsWhitespace c = false ∧ c ≠ '@' := by
  unfold okEmailChar
  cases h : isJsWhitespace c <;> simp

theorem matches_emailRegex_iff (x : List Char) :
    Regex.Matches emailRegex x ↔
      ∃ a b c : List Char, x = a ++ '@' :: (b ++ '.' :: c) ∧
        (a ≠ [] ∧ ∀ d ∈ a, okEmailChar d = true) ∧ (b ≠ [] ∧ ∀ d ∈ b, okEmailChar d = true) ∧
        (c ≠ [] ∧ ∀ d ∈ c, okEmailChar d = true) := by
  simp only [emailRegex, Regex.matches_seq_iff, Regex.matches_lit_iff, Regex.matches_plus_cls_iff]
  constructor
  · rintro ⟨a, _, rfl, ha, _, _, rfl, rfl, b, _, rfl, hb, _, c, rfl, rfl, hc⟩
    exact ⟨a, b, c, by simp, ha, hb, hc⟩
  · rintro ⟨a, b, c, rfl, ha, hb, hc⟩
    exact ⟨a, _, rfl, ha, ['@'], _, rfl, rfl, b, _, rfl, hb, ['.'], c, rfl, rfl, hc⟩

theorem isValidEmail_iff_shape (s : String) : isValidEmail s = true ↔ EmailShape s := by
  unfold isValidEmail Regex.test EmailShape
  rw [Regex.rmatch_iff_matches, matches_emailRegex_iff]
  constructor
  · rintro ⟨a, b, c, hx, ha, hb, hc⟩
    refine ⟨a, b ++ '.' :: c, hx, ha.1, ?_, b, c, rfl, hb.1, hc.1⟩
    intro d hd
    rw [← okEmailChar_iff]
    simp only [List.mem_append, List.mem_cons] at hd
    rcases hd with hd | hd | rfl | hd
    · exact ha.2 d hd
    · exact hb.2 d hd
    · decide
    · exact hc.2 d hd
  · rintro ⟨loc, dom, hx, hloc, hall, d₁, d₂, rfl, h₁, h₂⟩
    refine ⟨loc, d₁, d₂, hx, ⟨hloc, ?_⟩, ⟨h₁, ?_⟩, ⟨h₂, ?_⟩⟩
    · intro d hd; exact (okEmailChar_iff d).mpr (hall d (by simp [hd]))
    · intro d hd; exact (okEmailChar_iff d).mpr (hall d (by simp [hd]))
    · intro d hd; exact (okEmailChar_iff d).mpr (hall d (by simp [hd]))


/-! ### Decimal digits -/

theorem digitChar_spec : ∀ d < 10, isDigit (digitChar d) = true ∧ (digitChar d).toNat - 48 = d := by
  decide

theorem isDigit_not_whitespace {c : Char} (h : isDigit c = true) : isJsWhitespace c = false := by
  unfold isDigit at h
  unfold isJsWhitespace
  simp only [Bool.and_eq_true, decide_eq_true_eq] at h
  simp only [Bool.or_eq_false_iff, Bool.and_eq_false_iff, decide_eq_false_iff_not]
  omega

theorem natDigits_all_digits : ∀ (fuel n : Nat), ∀ c ∈ natDigits fuel n, isDigit c = true
  | 0, _ => by simp [natDigits]
  | fuel + 1, n => by
    intro c hc
    unfold natDigits at hc
    split at hc
    · next h =>
      simp only [List.mem_singleton] at hc
      rw [hc]
      exact (digitChar_spec n h).1
    · simp only [List.mem_append, List.mem_singleton] at hc
      rcases hc with hc | hc
      · exact natDigits_all_digits fuel (n / 10) c hc
      · rw [hc]
        exact (digitChar_spec (n % 10) (Nat.mod_lt n (by decide))).1

theorem natDigits_ne_nil (fuel n : Nat) : natDigits (fuel + 1) n ≠ [] := by
  unfold natDigits
  split <;> simp

theorem digitsToNat_append (l : List Char) (c : Char) :
    digitsToNat (l ++ [c]) = 10 * digitsToNat l + (c.toNat - 48) := by
  simp [digitsToNat, List.foldl_append]

theorem digitsToNat_natDigits : ∀ (fuel n : Nat), n < fuel → digitsToNat (natDigits fuel n) = n
  | 0, _, h => by omega
  | fuel + 1, n, h => by
    unfold natDigits
    split
    · next hn =>
      have := (digitChar_spec n hn).2
      simp [digitsToNat, this]
    · next hn =>
      rw [digitsToNat_append, digitsToNat_natDigits fuel (n / 10) (by omega),
        (digitChar_spec (n % 10) (Nat.mod_lt n (by decide))).2]
      omega

theorem readSign_digit {c : Char} (rest : List Char) (h : isDigit c = true) :
    readSign (c :: rest) = (false, c :: rest) := by
  unfold readSign
  split
  · next heq =>
    simp only [List.cons.injEq] at heq
    rw [heq.1] at h
    exact absurd h (by decide)
  · next heq =>
    simp only [List.cons.injEq] at heq
    rw [heq.1] at h
    exact absurd h (by decide)
  · rfl

theorem readHexMarker_digits {cs : List Char} (h : ∀ c ∈ cs, isDigit c = true) :
    readHexMarker cs = (false, cs) := by
  unfold readHexMarker
  split
  · next r =>
    have := h 'x' (by simp)
    exact absurd this (by decide)
  · next r =>
    have := h 'X' (by simp)
    exact absurd this (by decide)
  · rfl

theorem parseInt_natToString (t : Nat) : parseInt (natToString t) = some (t : Int) := by
  have hall := natDigits_all_digits (t + 1) t
  have hval := digitsToNat_natDigits (t + 1) t (Nat.lt_succ_self t)
  have hne := natDigits_ne_nil t t
  unfold parseInt natToString
  cases hd : natDigits (t + 1) t with
  | nil => exact absurd hd hne
  | cons c rest =>
    rw [hd] at hall hval
    have hc : isDigit c = true := hall c (List.mem_cons_self c rest)
    have hws : isJsWhitespace c = false := isDigit_not_whitespace hc
    have hdrop : List.dropWhile isJsWhitespace (c :: rest) = c :: rest := by
      simp [List.dropWhile, hws]
    have htake : List.takeWhile isDigit (c :: rest) = c :: rest :=
      List.takeWhile_eq_self_iff.mpr hall
    simp only [hdrop, readSign_digit rest hc, readHexMarker_digits hall, htake]
    simp [hval]

theorem natToString_ne_empty (t : Nat) : natToString t ≠ "" := by
  unfold natToString
  intro h
  have := congrArg String.data h
  exact natDigits_ne_nil t t this

/-! ### Lengths of decimal texts -/

theorem natDigits_length_le : ∀ (fuel n j : Nat), n < fuel → n < 10 ^ (j + 1) →
    (natDigits fuel n).length ≤ j + 1
  | 0, _, _, h, _ => by omega
  | fuel + 1, n, j, h, hj => by
    unfold natDigits
    split
    · simp
    · next hn =>
      cases j with
      | zero => simp at hj; omega
      | succ j =>
        have h₁ : n / 10 < 10 ^ (j + 1) := by
          rw [Nat.div_lt_iff_lt_mul (by decide)]
          rw [pow_succ] at hj
          exact hj
        have := natDigits_length_le fuel (n / 10) j (by omega) h₁
        simp only [List.length_append, List.length_singleton]
        omega

theorem natDigits_length_ge : ∀ (fuel n j : Nat), n < fuel → 10 ^ j ≤ n →
    j + 1 ≤ (natDigits fuel n).length
  | 0, _, _, h, _ => by omega
  | fuel + 1, n, j, h, hj => by
    unfold natDigits
    split
    · next hn =>
      cases j with
      | zero => simp
      | succ j =>
        have : 10 ≤ 10 ^ (j + 1) := by
          calc 10 = 10 ^ 1 := by norm_num
            _ ≤ 10 ^ (j + 1) := Nat.pow_le_pow_right (by decide) (by omega)
        omega
    · next hn =>
      cases j with
      | zero => simp
      | succ j =>
        have h₁ : 10 ^ j ≤ n / 10 := by
          rw [Nat.le_div_iff_mul_le (by decide)]
          rw [pow_succ] at hj
          exact hj
        have := natDigits_length_ge fuel (n / 10) j (by omega) h₁
        simp only [List.length_append, List.length_singleton]
        omega

theorem natToString_length {n j : Nat} (hlo : 10 ^ j ≤ n) (hhi : n < 10 ^ (j + 1)) :
    (natToString n).data.length = j + 1 := by
  have h₁ := natDigits_length_le (n + 1) n j (Nat.lt_succ_self n) hhi
  have h₂ := natDigits_length_ge (n + 1) n j (Nat.lt_succ_self n) hlo
  unfold natToString
  simp only
  omega

theorem natToString_digits (n : Nat) : ∀ c ∈ (natToString n).data, isDigit c = true :=
  natDigits_all_digits (n + 1) n

theorem padStart_zero_spec (s : String) (len : Nat) (hlen : s.data.length ≤ len)
    (hdigits : ∀ c ∈ s.data, isDigit c = true) :
    (padStart s len '0').data.length = len ∧ ∀ c ∈ (padStart s len '0').data, isDigit c = true := by
  unfold padStart
  constructor
  · simp only [List.length_append, List.length_replicate]
    omega
  · intro c hc
    simp only [List.mem_append, List.mem_replicate] at hc
    rcases hc with ⟨_, rfl⟩ | hc
    · decide
    · exact hdigits c hc

theorem matches_count_cls {p : Char → Bool} :
    ∀ (n : Nat) (ds : List Char), ds.length = n → (∀ c ∈ ds, p c = true) →
      Regex.Matches (Regex.count n (Regex.cls p)) ds
  | 0, ds, h, _ => by
    rw [List.length_eq_zero.mp h]
    exact Regex.Matches.eps
  | n + 1, [], h, _ => by simp at h
  | n + 1, c :: rest, h, hall => by
    have hrest := matches_count_cls n rest (by simpa using h)
      (fun d hd => hall d (List.mem_cons_of_mem c hd))
    exact Regex.Matches.seq (s := [c]) (Regex.Matches.cls (hall c (List.mem_cons_self c rest))) hrest

/-- Texts `SR-` + eight digits + `-` + three digits match the pattern `SR-\d{8}-\d{3}`. -/
theorem rmatch_reportNumberRegex {ds rs : List Char} (h8 : ds.length = 8) (h3 : rs.length = 3)
    (hd : ∀ c ∈ ds, isDigit c = true) (hr : ∀ c ∈ rs, isDigit c = true) :
    Regex.rmatch reportNumberRegex ('S' :: 'R' :: '-' :: (ds ++ '-' :: rs)) = true := by
  rw [Regex.rmatch_iff_matches]
  have hlit : ∀ c : Char, Regex.Matches (Regex.lit c) [c] := fun c => Regex.matches_lit_iff.mpr rfl
  have h₁ : Regex.Matches (Regex.seq (Regex.lit '-') (Regex.count 3 isDigitClass)) ('-' :: rs) :=
    Regex.Matches.seq (s := ['-']) (hlit '-') (matches_count_cls 3 rs h3 hr)
  have h₂ := Regex.Matches.seq (matches_count_cls 8 ds h8 hd) h₁
  exact Regex.Matches.seq (s := ['S']) (hlit 'S')
    (Regex.Matches.seq (s := ['R']) (hlit 'R') (Regex.Matches.seq (s := ['-']) (hlit '-') h₂))

theorem natToString_length_le {n j : Nat} (hhi : n < 10 ^ (j + 1)) :
    (natToString n).data.length ≤ j + 1 :=
  natDigits_length_le (n + 1) n j (Nat.lt_succ_self n) hhi

theorem toText_small {k : Nat} (hk : k ≤ 999) : Number.toText (Number.fin false k 0) = natToString k := by
  have h : Number.atLeast1e21 k 0 = false := by
    unfold Number.atLeast1e21
    simp only [decide_eq_false_iff_not, not_le]
    norm_num
    omega
  simp [Number.toText, h]

/-! ### Rounding to binary64 -/

theorem bitLength_bounds : ∀ (fuel n : Nat), n ≤ fuel →
    n < 2 ^ bitLength fuel n ∧ (0 < n → 2 ^ (bitLength fuel n - 1) ≤ n)
  | 0, n, h => by
    have : n = 0 := by omega
    subst this
    simp [bitLength]
  | fuel + 1, n, h => by
    unfold bitLength
    by_cases hn : n = 0
    · subst hn
      simp
    · simp only [hn, if_false]
      obtain ⟨ih₁, ih₂⟩ := bitLength_bounds fuel (n / 2) (by omega)
      constructor
      · rw [pow_succ]
        omega
      · intro _
        simp only [Nat.add_sub_cancel]
        by_cases h2 : n / 2 = 0
        · have : bitLength fuel (n / 2) = 0 := by
            rw [h2]
            cases fuel <;> simp [bitLength]
          rw [this]
          simp
          omega
        · have hpos : 0 < n / 2 := Nat.pos_of_ne_zero h2
          have h3 := ih₂ hpos
          have hb : 1 ≤ bitLength fuel (n / 2) := by
            by_contra hcon
            have : bitLength fuel (n / 2) = 0 := by omega
            rw [this] at ih₁
            simp at ih₁
            omega
          have : 2 ^ bitLength fuel (n / 2) = 2 * 2 ^ (bitLength fuel (n / 2) - 1) := by
            conv_lhs => rw [show bitLength fuel (n / 2) = (bitLength fuel (n / 2) - 1) + 1 by omega]
            rw [pow_succ]
            ring
          rw [this]
          omega

/-- The exponent computed for a quotient below `2 ^ 10` is at most 9. -/
theorem floorLog2_le_nine {n d : Nat} (hn : 0 < n) (h : n < 2 ^ 10 * d) :
    floorLog2 n d ≤ 9 := by
  obtain ⟨_, hnlo⟩ := bitLength_bounds n n (le_refl n)
  obtain ⟨hdhi, _⟩ := bitLength_bounds d d (le_refl d)
  have hnlo := hnlo hn
  unfold floorLog2
  simp only
  by_contra hcon
  simp only [not_le] at hcon
  split at hcon
  · next hc =>
    -- the quotient is at least `2 ^ e` with `e ≥ 10`
    have he : (10 : Int) ≤ (bitLength n n : Int) - (bitLength d d : Int) := by omega
    have h₁ : ((bitLength n n : Int) - (bitLength d d : Int)).toNat = bitLength n n - bitLength d d := by
      omega
    have h₂ : (-((bitLength n n : Int) - (bitLength d d : Int))).toNat = 0 := by omega
    rw [h₁, h₂] at hc
    simp only [pow_zero, mul_one] at hc
    have h₃ : 2 ^ 10 ≤ 2 ^ (bitLength n n - bitLength d d) :=
      Nat.pow_le_pow_right (by decide) (by omega)
    have : d * 2 ^ 10 ≤ d * 2 ^ (bitLength n n - bitLength d d) := Nat.mul_le_mul_left d h₃
    omega
  · have he : (11 : Int) ≤ (bitLength n n : Int) - (bitLength d d : Int) := by omega
    have h₃ : bitLength d d + 10 ≤ bitLength n n - 1 := by omega
    have h₄ : 2 ^ (bitLength d d + 10) ≤ 2 ^ (bitLength n n - 1) :=
      Nat.pow_le_pow_right (by decide) h₃
    rw [pow_add] at h₄
    have h₅ : d * 2 ^ 10 < 2 ^ bitLength d d * 2 ^ 10 := Nat.mul_lt_mul_of_pos_right hdhi (by decide)
    omega

/-- Rounding to the nearest integer stays at or below `K` when the quotient is below
`K + 1/2`. -/
theorem roundHalfEven_le {n d K : Nat} (hd : 0 < d) (h : 2 * n < (2 * K + 1) * d) :
    roundHalfEven n d ≤ K := by
  have hdiv := Nat.div_add_mod n d
  have hmod := Nat.mod_lt n hd
  have hexp : (2 * K + 1) * d = 2 * (d * K) + d := by ring
  rw [hexp] at h
  have hq : n / d ≤ K := by
    by_contra hcon
    have h₁ : K + 1 ≤ n / d := by omega
    have h₂ : d * (K + 1) ≤ d * (n / d) := Nat.mul_le_mul_left d h₁
    have h₃ : d * (K + 1) = d * K + d := by ring
    omega
  have hup : d ≤ 2 * (n % d) → n / d + 1 ≤ K := by
    intro hr
    by_contra hcon
    have h₁ : n / d = K := by omega
    rw [h₁] at hdiv
    omega
  unfold roundHalfEven
  simp only
  split
  · exact hq
  · split
    · exact hup (by omega)
    · split
      · exact hq
      · exact hup (by omega)

theorem scaled_product_bound {m P A : Nat} (hP : 2 ^ 43 ≤ P) (hmA : m < A) (hm : m < 2 ^ 53)
    (hA : A ≤ 2 ^ 53 ∨ 2 ^ 54 ≤ A) : 2000 * m * P + A < 2000 * P * A := by
  rcases hA with hA | hA
  · have h₁ : 2000 * P * (m + 1) ≤ 2000 * P * A := Nat.mul_le_mul_left _ (by omega)
    have h₂ : A < 2000 * P := by
      have : (2 : Nat) ^ 53 < 2000 * 2 ^ 43 := by norm_num
      omega
    have h₃ : 2000 * P * (m + 1) = 2000 * m * P + 2000 * P := by ring
    omega
  · have h₁ : 1000 * P * (2 * m) ≤ 1000 * P * A := Nat.mul_le_mul_left _ (by omega)
    have h₂ : 1000 * P * (2 * m) = 2000 * m * P := by ring
    have h₃ : 2 * A ≤ 1000 * P * A := by
      have : 2 ≤ 1000 * P := by
        have : (2 : Nat) ≤ 1000 * 2 ^ 43 := by norm_num
        omega
      exact Nat.mul_le_mul_right A this
    have h₄ : 2000 * P * A = 1000 * P * A + 1000 * P * A := by ring
    have h₅ : 0 < A := by
      have : (0 : Nat) < 2 ^ 54 := by norm_num
      omega
    omega

/-- The value `Math.floor(r * 1000)` for a binary64 value `r` with `0 ≤ r < 1` is an
integer between 0 and 999: the rounded product stays below 1000. -/
theorem floor_mul_1000_le (m : Nat) (e : Int) (hm : m < 2 ^ 53)
    (hlt : m * 2 ^ e.toNat < 2 ^ (-e).toNat) :
    ∃ k, Number.floor (Number.mul (Number.fin false m e) (Number.ofNat 1000)) = Number.fin false k 0 ∧
      k ≤ 999 := by
  have h1000 : Number.ofNat 1000 = Number.fin false 8796093022208000 (-43) := by decide
  rw [h1000]
  by_cases hm0 : m = 0
  · subst hm0
    exact ⟨0, by simp [Number.mul, roundScaled, roundToDouble, Number.floor], by omega⟩
  · have hneg : e < 0 := by
      by_contra hcon
      have h₁ : (-e).toNat = 0 := by omega
      rw [h₁] at hlt
      have h₂ : 0 < 2 ^ e.toNat := pow_pos (by decide) _
      have h₃ : m ≤ m * 2 ^ e.toNat := Nat.le_mul_of_pos_right m h₂
      omega
    obtain ⟨a, rfl⟩ : ∃ a : Nat, e = -((a : Int) + 1) := ⟨(-e - 1).toNat, by omega⟩
    have ht₁ : (-((a : Int) + 1)).toNat = 0 := by omega
    have ht₂ : (-(-((a : Int) + 1))).toNat = a + 1 := by omega
    rw [ht₁, ht₂] at hlt
    simp only [pow_zero, mul_one] at hlt
    have ht₃ : (-((a : Int) + 1) + -43).toNat = 0 := by omega
    have ht₄ : (-(-((a : Int) + 1) + -43)).toNat = a + 44 := by omega
    have hn0 : m * 8796093022208000 ≠ 0 := by omega
    have hnpos : 0 < m * 8796093022208000 := Nat.pos_of_ne_zero hn0
    have hquot : m * 8796093022208000 < 2 ^ 10 * 2 ^ (a + 44) := by
      have h₁ : (2 : Nat) ^ (a + 44) = 2 ^ (a + 1) * 2 ^ 43 := by
        rw [← pow_add]
      have h₂ : m * 8796093022208000 < 2 ^ (a + 1) * 8796093022208000 :=
        Nat.mul_lt_mul_of_pos_right hlt (by decide)
      have h₃ : (2 : Nat) ^ 10 * (2 ^ (a + 1) * 2 ^ 43) = 2 ^ (a + 1) * 9007199254740992 := by
        norm_num
        ring
      rw [h₁, h₃]
      have h₄ : 2 ^ (a + 1) * 8796093022208000 ≤ 2 ^ (a + 1) * 9007199254740992 :=
        Nat.mul_le_mul_left _ (by decide)
      omega
    have hlog := floorLog2_le_nine hnpos hquot
    simp only [Number.mul, roundScaled, roundToDouble, ht₃, ht₄, pow_zero, mul_one, hn0, if_false,
      bne_self_eq_false]
    generalize hE : max (floorLog2 (m * 8796093022208000) (2 ^ (a + 44))) (-1022) = E
    have hE₁ : E ≤ 9 := by rw [← hE]; omega
    have hE₂ : -1022 ≤ E := by rw [← hE]; omega
    have hE₃ : ¬ E > 1023 := by omega
    simp only [hE₃, if_false]
    obtain ⟨S, hS⟩ : ∃ S : Nat, 52 - E = (S : Int) := ⟨(52 - E).toNat, by omega⟩
    have hS₁ : (52 - E).toNat = S := by omega
    have hS₂ : (-(52 - E)).toNat = 0 := by omega
    have hS₃ : 43 ≤ S := by omega
    rw [hS₁, hS₂]
    simp only [pow_zero, mul_one]
    have hPlo : 2 ^ 43 ≤ 2 ^ S := Nat.pow_le_pow_right (by decide) hS₃
    have hPpos : 0 < 2 ^ S := pow_pos (by decide) _
    have hApow : 2 ^ (a + 1) ≤ 2 ^ 53 ∨ 2 ^ 54 ≤ 2 ^ (a + 1) := by
      by_cases ha : a + 1 ≤ 53
      · exact Or.inl (Nat.pow_le_pow_right (by decide) ha)
      · exact Or.inr (Nat.pow_le_pow_right (by decide) (by omega))
    have hbound := scaled_product_bound hPlo hlt hm hApow
    have hmant : roundHalfEven (m * 8796093022208000 * 2 ^ S) (2 ^ (a + 44)) ≤ 1000 * 2 ^ S - 1 := by
      apply roundHalfEven_le (pow_pos (by decide) _)
      have h₁ : (2 : Nat) ^ (a + 44) = 2 ^ (a + 1) * 8796093022208 := by
        rw [show a + 44 = (a + 1) + 43 by omega, pow_add]
        norm_num
      have h₂ : 2 * (1000 * 2 ^ S - 1) + 1 = 2000 * 2 ^ S - 1 := by omega
      rw [h₁, h₂]
      have h₃ : (2000 * 2 ^ S - 1) * (2 ^ (a + 1) * 8796093022208) =
          (2000 * 2 ^ S * 2 ^ (a + 1) - 2 ^ (a + 1)) * 8796093022208 := by
        rw [Nat.sub_mul, Nat.sub_mul, one_mul]
        ring_nf
      rw [h₃]
      have h₄ : 2 * (m * 8796093022208000 * 2 ^ S) = (2000 * m * 2 ^ S) * 8796093022208 := by ring
      rw [h₄]
      apply Nat.mul_lt_mul_of_pos_right _ (by decide)
      omega
    generalize roundHalfEven (m * 8796093022208000 * 2 ^ S) (2 ^ (a + 44)) = mant at hmant
    have hmant' : mant < 1000 * 2 ^ S := by omega
    by_cases h53 : mant = 2 ^ 53
    · have hE₄ : ¬ E = 1023 := by omega
      simp only [h53, if_true, hE₄, if_false, Number.floor]
      have hx₁ : (E - 51).toNat = 0 := by omega
      have hx₂ : (-(E - 51)).toNat = S - 1 := by omega
      rw [hx₁, hx₂]
      refine ⟨_, rfl, ?_⟩
      simp only [pow_zero, mul_one]
      have h₁ : (2 : Nat) ^ S = 2 * 2 ^ (S - 1) := by
        conv_lhs => rw [show S = (S - 1) + 1 by omega]
        rw [pow_succ]
        ring
      have h₂ : (2 : Nat) ^ 52 < 1000 * 2 ^ (S - 1) := by
        rw [h53, h₁] at hmant'
        have : (2 : Nat) ^ 53 = 2 * 2 ^ 52 := by norm_num
        omega
      have h₃ : 2 ^ 52 / 2 ^ (S - 1) < 1000 :=
        (Nat.div_lt_iff_lt_mul (pow_pos (by decide) _)).mpr h₂
      omega
    · simp only [h53, if_false, Number.floor]
      have hx₁ : (E - 52).toNat = 0 := by omega
      have hx₂ : (-(E - 52)).toNat = S := by omega
      rw [hx₁, hx₂]
      refine ⟨_, rfl, ?_⟩
      simp only [pow_zero, mul_one]
      have h₃ : mant / 2 ^ S < 1000 := (Nat.div_lt_iff_lt_mul hPpos).mpr hmant'
      omega

/-! ### Element lookup and storage: frame lemmas -/

theorem indexWhere_modifyAt_id (key : String) (g : Field → Field) (hg : ∀ f, (g f).id = f.id) :
    ∀ (fs : List Field) (i : Nat),
      indexWhere (fun f => f.id == key) (modifyAt g i fs) = indexWhere (fun f => f.id == key) fs
  | [], _ => by simp [modifyAt]
  | f :: rest, 0 => by simp [modifyAt, indexWhere, hg]
  | f :: rest, i + 1 => by
    simp [modifyAt, indexWhere, indexWhere_modifyAt_id key g hg rest i]

theorem setValue_id (v : String) (f : Field) : (setValue v f).id = f.id := rfl

theorem setValue_value (v : String) (f : Field) : (setValue v f).value = v := rfl

theorem getElementById_modifyAt (key : String) (g : Field → Field) (hg : ∀ f, (g f).id = f.id)
    (fs : List Field) (i : Nat) : getElementById (modifyAt g i fs) key = getElementById fs key := by
  unfold getElementById
  rw [indexWhere_modifyAt_id key g hg]

theorem getElementById_setValueById {fs fs₁ : List Field} {key v : String}
    (h : setValueById fs key v = some fs₁) (k : String) :
    getElementById fs₁ k = getElementById fs k := by
  unfold setValueById at h
  cases hi : getElementById fs key with
  | none => simp [hi] at h
  | some i =>
    simp only [hi, Option.map_some', Option.some.injEq] at h
    rw [← h]
    exact getElementById_modifyAt k (setValue v) (setValue_id v) fs i

theorem setValueById_isSome {fs : List Field} {key : String} (v : String)
    (h : (getElementById fs key).isSome = true) : ∃ fs₁, setValueById fs key v = some fs₁ := by
  unfold setValueById
  cases hi : getElementById fs key with
  | none => simp [hi] at h
  | some i => exact ⟨_, rfl⟩

theorem indexWhere_id_validateRequired (env : Env) (key : String) :
    ∀ (fs : List Field) (errors : List ErrorElement),
      indexWhere (fun f => f.id == key) (validateRequired env fs errors).2.2 =
        indexWhere (fun f => f.id == key) fs
  | [], _ => rfl
  | f :: rest, errors => by
    unfold validateRequired
    split
    · simp only [indexWhere, validateField]
      rw [indexWhere_id_validateRequired env key rest]
    · simp only [indexWhere]
      rw [indexWhere_id_validateRequired env key rest]

theorem getElementById_validateForm (env : Env) (app : App) (key : String) :
    getElementById (validateForm env app).2.fields key = getElementById app.fields key := by
  have h : (validateForm env app).2.fields = (validateRequired env app.fields app.errors).2.2 := by
    unfold validateForm
    cases app.engineerSignaturePad with
    | none => rfl
    | some pad => by_cases hp : pad.isEmpty = true <;> simp [hp, showMessage]
  rw [h]
  unfold getElementById
  rw [indexWhere_id_validateRequired]

theorem validateForm_storage (env : Env) (app : App) :
    (validateForm env app).2.storage = app.storage ∧ (validateForm env app).2.writes = app.writes ∧
      (validateForm env app).2.engineerSignaturePad = app.engineerSignaturePad ∧
      (validateForm env app).2.customerSignaturePad = app.customerSignaturePad := by
  unfold validateForm
  cases app.engineerSignaturePad with
  | none => exact ⟨rfl, rfl, rfl, rfl⟩
  | some pad =>
    by_cases hp : pad.isEmpty = true
    · simp [hp, showMessage]
    · simp [hp]

theorem validateForm_submitBegin (env : Env) (app : App) :
    (validateForm env (submitBegin app)).1 = (validateForm env app).1 := by
  unfold validateForm submitBegin showLoading
  dsimp only
  cases app.engineerSignaturePad with
  | none => rfl
  | some pad => by_cases hp : pad.isEmpty = true <;> simp [hp]

theorem saveSignature_ok (pad : Option SignaturePad) (key : String) (app : App)
    (h : (getElementById app.fields key).isSome = true) :
    ∃ saved, saveSignature pad key app = Except.ok saved ∧ saved.storage = app.storage ∧
      saved.writes = app.writes ∧ saved.customerSignaturePad = app.customerSignaturePad ∧
      ∀ k, getElementById saved.fields k = getElementById app.fields k := by
  unfold saveSignature
  cases pad with
  | none => exact ⟨app, rfl, rfl, rfl, rfl, fun _ => rfl⟩
  | some p =>
    by_cases hp : p.isEmpty = true
    · simp only [hp, Bool.not_true, Bool.false_eq_true, if_false]
      exact ⟨app, rfl, rfl, rfl, rfl, fun _ => rfl⟩
    · obtain ⟨fs, hfs⟩ := setValueById_isSome p.toDataURL h
      simp only [hp, Bool.not_false, if_true, hfs]
      exact ⟨_, rfl, rfl, rfl, rfl, fun k => getElementById_setValueById hfs k⟩

theorem saveSignatures_ok (app : App)
    (heng : (getElementById app.fields "engineerSignature").isSome = true)
    (hcus : (getElementById app.fields "customerSignature").isSome = true) :
    ∃ saved, saveSignatures app = Except.ok saved ∧ saved.storage = app.storage ∧
      saved.writes = app.writes := by
  obtain ⟨s₁, h₁, hst₁, hw₁, hc₁, hid₁⟩ :=
    saveSignature_ok app.engineerSignaturePad "engineerSignature" app heng
  have hcus₁ : (getElementById s₁.fields "customerSignature").isSome = true := by
    rw [hid₁]; exact hcus
  obtain ⟨s₂, h₂, hst₂, hw₂, _, _⟩ :=
    saveSignature_ok s₁.customerSignaturePad "customerSignature" s₁ hcus₁
  refine ⟨s₂, ?_, hst₂.trans hst₁, hw₂.trans hw₁⟩
  unfold saveSignatures
  rw [h₁]
  exact h₂

theorem indexWhere_get_some {p : Field → Bool} :
    ∀ {fs : List Field} {i : Nat}, indexWhere p fs = some i → ∃ f, fs.get? i = some f ∧ p f = true
  | [], _, h => by simp [indexWhere] at h
  | f :: rest, i, h => by
    unfold indexWhere at h
    by_cases hp : p f = true
    · simp only [hp, if_true, Option.some.injEq] at h
      subst h
      exact ⟨f, rfl, hp⟩
    · simp only [hp, Bool.false_eq_true, if_false, Option.map_eq_some'] at h
      obtain ⟨j, hj, rfl⟩ := h
      obtain ⟨g, hg, hpg⟩ := indexWhere_get_some hj
      exact ⟨g, by simpa using hg, hpg⟩

theorem getAt_modifyAt (g : Field → Field) :
    ∀ (fs : List Field) (i : Nat), (modifyAt g i fs).get? i = (fs.get? i).map g
  | [], _ => by simp [modifyAt]
  | f :: rest, 0 => rfl
  | f :: rest, i + 1 => getAt_modifyAt g rest i

theorem valueById_modifyAt {fs : List Field} {key : String} {i : Nat} (text : String)
    (h : getElementById fs key = some i) :
    valueById (modifyAt (setValue text) i fs) key = some text := by
  have hidx : getElementById (modifyAt (setValue text) i fs) key = some i := by
    rw [getElementById_modifyAt key (setValue text) (setValue_id text), h]
  have hget : ∃ f, fs.get? i = some f := by
    unfold getElementById at h
    split at h
    · simp at h
    · obtain ⟨f, hf, _⟩ := indexWhere_get_some h
      exact ⟨f, hf⟩
  obtain ⟨f, hf⟩ := hget
  unfold valueById
  rw [hidx, Option.some_bind, getAt_modifyAt, hf]
  simp [setValue_value]

theorem getItem_putItem_ne {key k : String} (v : String) (h : k ≠ key) :
    ∀ store : List (String × String), getItem key (putItem k v store) = getItem key store
  | [] => by simp [putItem, getItem, h]
  | (a, b) :: rest => by
    by_cases hak : a = k
    · subst hak
      simp [putItem, getItem, h]
    · by_cases hakey : a = key
      · subst hakey
        simp [putItem, getItem, hak]
      · simp [putItem, getItem, hak, hakey, getItem_putItem_ne v h rest]

/-! ### Submission -/

/-- The outcome of `handleFormSubmit` on a state with no submission in flight, when the
hidden signature fields are present. -/
theorem handleFormSubmit_outcome (env : Env) (app : App)
    (hflag : app.isSubmitting = false)
    (heng : (getElementById app.fields "engineerSignature").isSome = true)
    (hcus : (getElementById app.fields "customerSignature").isSome = true) :
    ((validateForm env app).1 = true →
      ∃ saved, saveSignatures (validateForm env (submitBegin app)).2 = Except.ok saved ∧
        (handleFormSubmit env app).writes = app.writes ++
          [("serviceReport", env.jsonStringify (getFormData env saved)),
           ("serviceReportTimestamp", intToString env.now)] ∧
        (handleFormSubmit env app).storage =
          putItem "serviceReportTimestamp" (intToString env.now)
            (putItem "serviceReport" (env.jsonStringify (getFormData env saved)) app.storage)) ∧
    ((validateForm env app).1 = false →
      (handleFormSubmit env app).storage = app.storage ∧
        (handleFormSubmit env app).writes = app.writes) := by
  have hbody : handleFormSubmit env app = submitBody env (submitBegin app) := by
    simp [handleFormSubmit, hflag]
  have hst := validateForm_storage env (submitBegin app)
  constructor
  · intro hv
    have hv' : (validateForm env (submitBegin app)).1 = true := by
      rw [validateForm_submitBegin]; exact hv
    obtain ⟨saved, hs, hss, hsw⟩ := saveSignatures_ok (validateForm env (submitBegin app)).2
      (by rw [getElementById_validateForm]; exact heng)
      (by rw [getElementById_validateForm]; exact hcus)
    refine ⟨saved, hs, ?_, ?_⟩
    · rw [hbody]
      simp only [submitBody, submitAttempt, hv', hs, showLoading, showMessage, setItem,
        Bool.not_true, Bool.false_eq_true, if_false, hsw, hst.2.1]
      simp [submitBegin, showLoading]
    · rw [hbody]
      simp only [submitBody, submitAttempt, hv', hs, showLoading, showMessage, setItem,
        Bool.not_true, Bool.false_eq_true, if_false, hss, hst.1]
      simp [submitBegin, showLoading]
  · intro hv
    have hv' : (validateForm env (submitBegin app)).1 = false := by
      rw [validateForm_submitBegin]; exact hv
    rw [hbody]
    simp only [submitBody, submitAttempt, hv', showLoading, showMessage, Bool.not_false, if_true,
      hst.1, hst.2.1]
    simp [submitBegin, showLoading]

/-! ### Clearing the form -/

theorem getItem_dropItem_ne {key k : String} (h : k ≠ key) :
    ∀ store : List (String × String), getItem key (dropItem k store) = getItem key store
  | [] => rfl
  | (a, b) :: rest => by
    by_cases hak : a = k
    · subst hak
      simp [dropItem, getItem, h, getItem_dropItem_ne h rest]
    · by_cases hakey : a = key
      · subst hakey
        simp [dropItem, getItem, hak]
      · simp [dropItem, getItem, hak, hakey, getItem_dropItem_ne h rest]

theorem clearSignature_storage (type : String) (app : App) :
    ∀ a, (clearSignature type app = Except.ok a ∨ clearSignature type app = Except.error a) →
      a.storage = app.storage := by
  intro a h
  unfold clearSignature at h
  split at h
  · simp only at h
    cases hv : setValueById app.fields "engineerSignature" "" with
    | none =>
      simp only [hv] at h
      rcases h with h | h
      · cases h
      · cases h; rfl
    | some fs =>
      simp only [hv] at h
      rcases h with h | h
      · cases h; rfl
      · cases h
  · split at h
    · simp only at h
      cases hv : setValueById app.fields "customerSignature" "" with
      | none =>
        simp only [hv] at h
        rcases h with h | h
        · cases h
        · cases h; rfl
      | some fs =>
        simp only [hv] at h
        rcases h with h | h
        · cases h; rfl
        · cases h
    · rcases h with h | h
      · cases h; rfl
      · cases h

/-- Whatever the state, `handleClearForm` leaves the two draft keys of local storage as
they were. -/
theorem handleClearForm_draft_untouched (env : Env) (app : App) :
    getItem "serviceReportDraft" (handleClearForm env app).storage =
      getItem "serviceReportDraft" app.storage ∧
    getItem "serviceReportDraftTimestamp" (handleClearForm env app).storage =
      getItem "serviceReportDraftTimestamp" app.storage := by
  unfold handleClearForm
  by_cases hc : env.confirm = true
  · simp only [hc, if_true]
    cases h₁ : clearSignature "engineer" { app with fields := resetForm app.fields } with
    | error a =>
      have hs : a.storage = app.storage :=
        clearSignature_storage "engineer" { app with fields := resetForm app.fields } a (Or.inr h₁)
      simp only [hs, and_self]
    | ok a₁ =>
      have hs₁ : a₁.storage = app.storage :=
        clearSignature_storage "engineer" { app with fields := resetForm app.fields } a₁ (Or.inl h₁)
      cases h₂ : clearSignature "customer" a₁ with
      | error a =>
        have hs : a.storage = app.storage :=
          (clearSignature_storage "customer" a₁ a (Or.inr h₂)).trans hs₁
        simp only [h₂, hs, and_self]
      | ok a₂ =>
        have hs₂ : a₂.storage = app.storage :=
          (clearSignature_storage "customer" a₁ a₂ (Or.inl h₂)).trans hs₁
        simp only [h₂, showMessage, setDefaultValues, removeItem, hs₂]
        constructor
        · rw [getItem_dropItem_ne (by decide), getItem_dropItem_ne (by decide)]
        · rw [getItem_dropItem_ne (by decide), getItem_dropItem_ne (by decide)]
  · simp [hc]

/-! ### Validation -/

theorem trimChars_eq_nil {l : List Char} (h : trimChars l = []) :
    ∀ c ∈ l, isJsWhitespace c = true := by
  unfold trimChars at h
  have h₁ : (l.dropWhile isJsWhitespace).reverse.dropWhile isJsWhitespace = [] := by
    simpa using h
  have h₂ : ∀ c ∈ l.dropWhile isJsWhitespace, isJsWhitespace c = true := by
    intro c hc
    exact List.dropWhile_eq_nil_iff.mp h₁ c (List.mem_reverse.mpr hc)
  have h₃ : l.dropWhile isJsWhitespace = [] := by
    cases hd : l.dropWhile isJsWhitespace with
    | nil => rfl
    | cons c rest =>
      have hc : isJsWhitespace c = true := h₂ c (by rw [hd]; exact List.mem_cons_self c rest)
      have hn := List.head_dropWhile_not isJsWhitespace l (by rw [hd]; simp)
      simp only [hd, List.head_cons, hc] at hn
      exact absurd hn (by simp)
  exact List.dropWhile_eq_nil_iff.mp h₃

theorem trimChars_ne_nil {c : Char} {rest : List Char} (hc : isJsWhitespace c = false) :
    trimChars (c :: rest) ≠ [] := by
  intro h
  have := trimChars_eq_nil h c (List.mem_cons_self c rest)
  rw [hc] at this
  exact absurd this (by simp)

theorem jsTrim_eq_empty_iff (s : String) : jsTrim s = "" ↔ trimChars s.data = [] := by
  unfold jsTrim
  constructor
  · intro h
    have := congrArg String.data h
    simpa using this
  · intro h
    rw [h]

theorem isValidEmail_blank {s : String} (h : jsTrim s = "") : isValidEmail s = false := by
  cases hv : isValidEmail s with
  | false => rfl
  | true =>
    obtain ⟨loc, dom, hs, hloc, hall, _⟩ := (isValidEmail_iff_shape s).mp hv
    cases loc with
    | nil => exact absurd rfl hloc
    | cons c rest =>
      have hws := trimChars_eq_nil ((jsTrim_eq_empty_iff s).mp h) c (by rw [hs]; simp)
      have := (hall c (by simp)).1
      rw [hws] at this
      exact absurd this (by simp)

theorem jsTrim_ne_empty_of_shape {s : String} (h : EmailShape s) : jsTrim s ≠ "" := by
  obtain ⟨loc, dom, hs, hloc, hall, _⟩ := h
  intro ht
  cases loc with
  | nil => exact absurd rfl hloc
  | cons c rest =>
    have hws := trimChars_eq_nil ((jsTrim_eq_empty_iff s).mp ht) c (by rw [hs]; simp)
    have := (hall c (by simp)).1
    rw [hws] at this
    exact absurd this (by simp)

theorem not_emailShape_empty : ¬ EmailShape "" := by
  rintro ⟨loc, dom, hs, _, _⟩
  have : ("" : String).data = [] := rfl
  rw [this] at hs
  cases loc <;> simp at hs

/-- The verdict on an email-typed field whose value is not empty. -/
theorem fieldVerdict_email (env : Env) (f : Field) (htype : f.type = "email")
    (hne : f.value ≠ "") :
    fieldVerdict env f =
      if isValidEmail f.value then (true, "") else (false, "Please enter a valid email address") := by
  have hdate : (f.type == "date") = false := by rw [htype]; decide
  have hval : (f.value != "") = true := by simpa using hne
  unfold fieldVerdict
  by_cases hv : isValidEmail f.value = true
  · have hreq : (jsTrim f.value == "") = false := by
      have := jsTrim_ne_empty_of_shape ((isValidEmail_iff_shape f.value).mp hv)
      simpa using this
    simp [htype, hv, hreq, hval]
  · simp only [Bool.not_eq_true] at hv
    simp [htype, hv, hval]

/-- The verdict on a required field whose value is blank, unless it is an email-typed
field that holds white space or a date field whose white space reads as a date. -/
theorem fieldVerdict_blank (env : Env) (f : Field) (hreq : f.required = true)
    (hblank : jsTrim f.value = "") (hemail : ¬ (f.type = "email" ∧ f.value ≠ ""))
    (hdate : f.type = "date" → f.value ≠ "" → env.dateParse f.value = none) :
    fieldVerdict env f = (false, "This field is required") := by
  unfold fieldVerdict
  have h₁ : (jsTrim f.value == "") = true := by simpa using hblank
  by_cases hv : f.value = ""
  · have h₂ : (jsTrim "" == "") = true := by decide
    simp [hreq, h₂, hv]
  · have hval : (f.value != "") = true := by simpa using hv
    have hty : (f.type == "email") = false := by
      by_cases ht : f.type = "email"
      · exact absurd ⟨ht, hv⟩ hemail
      · simpa using ht
    by_cases hd : f.type = "date"
    · have hp := hdate hd hv
      simp [hreq, h₁, hval, hd, hp]
    · have hd' : (f.type == "date") = false := by simpa using hd
      simp [hreq, h₁, hval, hty, hd']

theorem fieldVerdict_blank_invalid (env : Env) (f : Field) (hreq : f.required = true)
    (hblank : jsTrim f.value = "") : (fieldVerdict env f).1 = false := by
  unfold fieldVerdict
  have h₁ : (jsTrim f.value == "") = true := by simpa using hblank
  simp only [hreq, h₁, Bool.and_self, if_true]
  split <;> split <;> (try split) <;> rfl

theorem errorElementById_setErrorText (K K' msg : String) (v : Bool) :
    ∀ errors : List ErrorElement,
      errorElementById K (setErrorText K' msg v errors) =
        if K' = K then
          (errorElementById K errors).map (fun e => { e with textContent := msg, shown := !v })
        else errorElementById K errors
  | [] => by simp [setErrorText, errorElementById]
  | e :: rest => by
    by_cases h₁ : e.id = K'
    · by_cases h₂ : K' = K
      · subst h₂
        simp [setErrorText, errorElementById, h₁]
      · have h₃ : ¬ e.id = K := fun h => h₂ (h₁ ▸ h)
        simp [setErrorText, errorElementById, h₁, h₂, h₃]
    · by_cases h₂ : K' = K
      · subst h₂
        simp [setErrorText, errorElementById, h₁, errorElementById_setErrorText K' K' msg v rest]
      · by_cases h₃ : e.id = K
        · have h₄ : ¬ K = K' := fun h => h₂ h.symm
          subst h₃
          simp [setErrorText, errorElementById, h₄, h₂]
        · simp [setErrorText, errorElementById, h₁, h₂, h₃,
            errorElementById_setErrorText K K' msg v rest]

theorem errorElementById_validateRequired_other (env : Env) (K : String) :
    ∀ (fs : List Field) (errors : List ErrorElement),
      (∀ g ∈ fs, g.inForm = true → g.required = true → g.id ++ "-error" ≠ K) →
      errorElementById K (validateRequired env fs errors).2.1 = errorElementById K errors
  | [], _, _ => rfl
  | f :: rest, errors, h => by
    have hrest : ∀ g ∈ rest, g.inForm = true → g.required = true → g.id ++ "-error" ≠ K :=
      fun g hg => h g (List.mem_cons_of_mem f hg)
    unfold validateRequired
    by_cases hc : (f.inForm && f.required) = true
    · simp only [hc, if_true]
      rw [errorElementById_validateRequired_other env K rest _ hrest]
      simp only [Bool.and_eq_true] at hc
      have hk := h f (List.mem_cons_self f rest) hc.1 hc.2
      simp only [validateField]
      rw [errorElementById_setErrorText, if_neg hk]
    · simp only [hc, Bool.false_eq_true, if_false]
      exact errorElementById_validateRequired_other env K rest errors hrest

theorem errorElementById_validateRequired (env : Env) (K msg : String) (v : Bool) :
    ∀ (fs : List Field) (errors : List ErrorElement) (e : ErrorElement),
      (∃ g ∈ fs, g.inForm = true ∧ g.required = true ∧ g.id ++ "-error" = K) →
      (∀ g ∈ fs, g.inForm = true → g.required = true → g.id ++ "-error" = K →
        fieldVerdict env g = (v, msg)) →
      errorElementById K errors = some e →
      errorElementById K (validateRequired env fs errors).2.1 =
        some { e with textContent := msg, shown := !v }
  | [], _, _, hex, _, _ => by
    obtain ⟨g, hg, _⟩ := hex
    simp at hg
  | f :: rest, errors, e, hex, hall, he => by
    have hallRest : ∀ g ∈ rest, g.inForm = true → g.required = true → g.id ++ "-error" = K →
        fieldVerdict env g = (v, msg) := fun g hg => hall g (List.mem_cons_of_mem f hg)
    unfold validateRequired
    by_cases hc : (f.inForm && f.required) = true
    · simp only [hc, if_true]
      have hc' := hc
      simp only [Bool.and_eq_true] at hc'
      by_cases hk : f.id ++ "-error" = K
      · have hverdict := hall f (List.mem_cons_self f rest) hc'.1 hc'.2 hk
        have he₁ : errorElementById K (validateField env errors f).2.1 =
            some { e with textContent := msg, shown := !v } := by
          simp only [validateField]
          rw [errorElementById_setErrorText, if_pos hk, he, hverdict]
          rfl
        by_cases hmore : ∃ g ∈ rest, g.inForm = true ∧ g.required = true ∧ g.id ++ "-error" = K
        · have h := errorElementById_validateRequired env K msg v rest _ _ hmore hallRest he₁
          exact h
        · rw [errorElementById_validateRequired_other env K rest _ ?_]
          · exact he₁
          · intro g hg h₁ h₂ h₃
            exact hmore ⟨g, hg, h₁, h₂, h₃⟩
      · have he₁ : errorElementById K (validateField env errors f).2.1 = some e := by
          simp only [validateField]
          rw [errorElementById_setErrorText, if_neg hk, he]
        have hmore : ∃ g ∈ rest, g.inForm = true ∧ g.required = true ∧ g.id ++ "-error" = K := by
          obtain ⟨g, hg, h₁, h₂, h₃⟩ := hex
          rcases List.mem_cons.mp hg with rfl | hg
          · exact absurd h₃ hk
          · exact ⟨g, hg, h₁, h₂, h₃⟩
        exact errorElementById_validateRequired env K msg v rest _ _ hmore hallRest he₁
    · simp only [hc, Bool.false_eq_true, if_false]
      have hmore : ∃ g ∈ rest, g.inForm = true ∧ g.required = true ∧ g.id ++ "-error" = K := by
        obtain ⟨g, hg, h₁, h₂, h₃⟩ := hex
        rcases List.mem_cons.mp hg with rfl | hg
        · exact absurd (by simp [h₁, h₂]) hc
        · exact ⟨g, hg, h₁, h₂, h₃⟩
      exact errorElementById_validateRequired env K msg v rest errors e hmore hallRest he

theorem validateRequired_result (env : Env) :
    ∀ (fs : List Field) (errors : List ErrorElement),
      (validateRequired env fs errors).1 = true ↔
        ∀ f ∈ fs, f.inForm = true → f.required = true → (fieldVerdict env f).1 = true
  | [], _ => by simp [validateRequired]
  | f :: rest, errors => by
    unfold validateRequired
    by_cases hc : (f.inForm && f.required) = true
    · simp only [hc, if_true, Bool.and_eq_true, List.mem_cons, forall_eq_or_imp]
      rw [validateRequired_result env rest]
      simp only [Bool.and_eq_true] at hc
      simp [validateField, hc.1, hc.2]
    · simp only [hc, Bool.false_eq_true, if_false, List.mem_cons, forall_eq_or_imp]
      rw [validateRequired_result env rest]
      constructor
      · intro h
        refine ⟨fun h₁ h₂ => absurd (by simp [h₁, h₂]) hc, h⟩
      · intro h
        exact h.2

theorem validateForm_errors (env : Env) (app : App) :
    (validateForm env app).2.errors = (validateRequired env app.fields app.errors).2.1 := by
  unfold validateForm
  cases app.engineerSignaturePad with
  | none => rfl
  | some pad => by_cases hp : pad.isEmpty = true <;> simp [hp, showMessage]

theorem validateForm_result (env : Env) (app : App) :
    (validateForm env app).1 = true ↔
      (∀ f ∈ app.fields, f.inForm = true → f.required = true → (fieldVerdict env f).1 = true) ∧
        ∀ pad, app.engineerSignaturePad = some pad → pad.isEmpty = false := by
  rw [← validateRequired_result env app.fields app.errors]
  unfold validateForm
  cases app.engineerSignaturePad with
  | none => simp
  | some pad => by_cases hp : pad.isEmpty = true <;> simp [hp]

theorem append_error_inj {a b : String} (h : a ++ "-error" = b ++ "-error") : a = b := by
  have := congrArg String.data h
  simp only [String.data_append] at this
  exact String.ext (List.append_cancel_right this)

/-! ### Claims on validation and submission -/

/-- C3. Submission is gated by validation: when no submission is in flight (and the hidden
signature fields of the page exist), `handleFormSubmit` calls `localStorage.setItem` if and
only if `validateForm` returns true; it then writes exactly the keys `serviceReport` and
`serviceReportTimestamp`; when `validateForm` returns false the storage is left as it was;
in both cases the draft keys keep their values. -/
theorem handleFormSubmit_gated_by_validation (env : Env) (app : App)
    (hflag : app.isSubmitting = false)
    (heng : (getElementById app.fields "engineerSignature").isSome = true)
    (hcus : (getElementById app.fields "customerSignature").isSome = true) :
    ((handleFormSubmit env app).writes ≠ app.writes ↔ (validateForm env app).1 = true) ∧
    ((validateForm env app).1 = true →
      ∃ saved, saveSignatures (validateForm env (submitBegin app)).2 = Except.ok saved ∧
        (handleFormSubmit env app).writes = app.writes ++
          [("serviceReport", env.jsonStringify (getFormData env saved)),
           ("serviceReportTimestamp", intToString env.now)] ∧
        (handleFormSubmit env app).storage =
          putItem "serviceReportTimestamp" (intToString env.now)
            (putItem "serviceReport" (env.jsonStringify (getFormData env saved)) app.storage)) ∧
    ((validateForm env app).1 = false →
      (handleFormSubmit env app).storage = app.storage ∧
        (handleFormSubmit env app).writes = app.writes) ∧
    getItem "serviceReportDraft" (handleFormSubmit env app).storage =
      getItem "serviceReportDraft" app.storage ∧
    getItem "serviceReportDraftTimestamp" (handleFormSubmit env app).storage =
      getItem "serviceReportDraftTimestamp" app.storage := by
  obtain ⟨htrue, hfalse⟩ := handleFormSubmit_outcome env app hflag heng hcus
  refine ⟨?_, htrue, hfalse, ?_, ?_⟩
  · constructor
    · intro hne
      cases hv : (validateForm env app).1 with
      | true => rfl
      | false => exact absurd (hfalse hv).2 hne
    · intro hv
      obtain ⟨saved, _, hw, _⟩ := htrue hv
      rw [hw]
      simp
  · cases hv : (validateForm env app).1 with
    | true =>
      obtain ⟨saved, _, _, hs⟩ := htrue hv
      rw [hs, getItem_putItem_ne _ (by decide), getItem_putItem_ne _ (by decide)]
    | false => rw [(hfalse hv).1]
  · cases hv : (validateForm env app).1 with
    | true =>
      obtain ⟨saved, _, _, hs⟩ := htrue hv
      rw [hs, getItem_putItem_ne _ (by decide), getItem_putItem_ne _ (by decide)]
    | false => rw [(hfalse hv).1]

/-- C3, at the sample form: it is valid, and the submission writes the snapshot. -/
theorem handleFormSubmit_gated_by_validation_witness :
    sampleApp.isSubmitting = false ∧
    (validateForm sampleEnv sampleApp).1 = true ∧
    (handleFormSubmit sampleEnv sampleApp).writes ≠ sampleApp.writes :=
  ⟨rfl, by decide,
    ((handleFormSubmit_gated_by_validation sampleEnv sampleApp rfl (by decide) (by decide)).1).mpr
      (by decide)⟩

/-- C9. In-flight guard: while `isSubmitting` is set, `handleFormSubmit` returns the state
unchanged (no validation, no storage write, flag unchanged); hence when a second
submission is triggered while the first is in flight (the first has passed the guard and
set the flag), the two together make one write of the snapshot: the trace of `setItem`
calls grows by the pair `serviceReport`, `serviceReportTimestamp` once. -/
theorem handleFormSubmit_in_flight_guard (env₁ env₂ : Env) (app : App) :
    (app.isSubmitting = true → handleFormSubmit env₂ app = app) ∧
    (app.isSubmitting = false →
      (getElementById app.fields "engineerSignature").isSome = true →
      (getElementById app.fields "customerSignature").isSome = true →
      (validateForm env₁ app).1 = true →
      handleFormSubmit env₂ (submitBegin app) = submitBegin app ∧
      ∃ record,
        (submitBody env₁ (handleFormSubmit env₂ (submitBegin app))).writes = app.writes ++
          [("serviceReport", env₁.jsonStringify record),
           ("serviceReportTimestamp", intToString env₁.now)]) := by
  constructor
  · intro h
    simp [handleFormSubmit, h]
  · intro hflag heng hcus hv
    have hnoop : handleFormSubmit env₂ (submitBegin app) = submitBegin app := by
      simp [handleFormSubmit, submitBegin, showLoading]
    refine ⟨hnoop, ?_⟩
    obtain ⟨saved, _, hw, _⟩ := (handleFormSubmit_outcome env₁ app hflag heng hcus).1 hv
    refine ⟨getFormData env₁ saved, ?_⟩
    rw [hnoop, ← hw]
    simp [handleFormSubmit, hflag]

/-- C9, at the sample form: a submission in flight ignores a second one, and the first
then writes once. -/
theorem handleFormSubmit_in_flight_guard_witness :
    handleFormSubmit sampleEnv (submitBegin sampleApp) = submitBegin sampleApp ∧
    ∃ record,
      (submitBody sampleEnv (handleFormSubmit sampleEnv (submitBegin sampleApp))).writes =
        sampleApp.writes ++
          [("serviceReport", sampleEnv.jsonStringify record),
           ("serviceReportTimestamp", intToString sampleEnv.now)] :=
  ⟨(handleFormSubmit_in_flight_guard sampleEnv sampleEnv (submitBegin sampleApp)).1 rfl,
    ((handleFormSubmit_in_flight_guard sampleEnv sampleEnv sampleApp).2 rfl (by decide)
      (by decide) (by decide)).2⟩

/-- C4, amended. For every required field of the form whose value is blank after
trimming, `validateForm` returns false; when the field has an error element and no other
required field shares its id, that element then shows "This field is required", except
that an email-typed field whose blank value is not the empty string (white space only)
shows "Please enter a valid email address" instead.  (A blank text is assumed not to
read as a date.)  This holds for every such field of the form at once. -/
theorem validateForm_blank_required_message (env : Env) (app : App) (f : Field)
    (hmem : f ∈ app.fields) (hform : f.inForm = true) (hreq : f.required = true)
    (hblank : jsTrim f.value = "") :
    (validateForm env app).1 = false ∧
    ∀ e, errorElementById (f.id ++ "-error") app.errors = some e →
      (∀ g ∈ app.fields, g.inForm = true → g.required = true → g.id = f.id → g = f) →
      (f.type = "email" ∧ f.value ≠ "" →
        errorElementById (f.id ++ "-error") (validateForm env app).2.errors =
          some { e with textContent := "Please enter a valid email address", shown := true }) ∧
      (¬ (f.type = "email" ∧ f.value ≠ "") →
        (f.type = "date" → f.value ≠ "" → env.dateParse f.value = none) →
        errorElementById (f.id ++ "-error") (validateForm env app).2.errors =
          some { e with textContent := "This field is required", shown := true }) := by
  constructor
  · cases hv : (validateForm env app).1 with
    | false => rfl
    | true =>
      have h := ((validateForm_result env app).mp hv).1 f hmem hform hreq
      rw [fieldVerdict_blank_invalid env f hreq hblank] at h
      exact absurd h (by simp)
  · intro e he huniq
    have key : ∀ msg, fieldVerdict env f = (false, msg) →
        errorElementById (f.id ++ "-error") (validateForm env app).2.errors =
          some { e with textContent := msg, shown := true } := by
      intro msg hmsg
      rw [validateForm_errors]
      have h := errorElementById_validateRequired env (f.id ++ "-error") msg false app.fields
        app.errors e ⟨f, hmem, hform, hreq, rfl⟩
        (fun g hg h₁ h₂ h₃ => by rw [huniq g hg h₁ h₂ (append_error_inj h₃)]; exact hmsg) he
      exact h
    constructor
    · rintro ⟨htype, hne⟩
      apply key
      rw [fieldVerdict_email env f htype hne, isValidEmail_blank hblank]
      rfl
    · intro hemail hdate
      exact key _ (fieldVerdict_blank env f hreq hblank hemail hdate)

/-- C4, amended, at the sample form with a blank report number. -/
theorem validateForm_blank_required_message_witness :
    jsTrim "  " = "" ∧
    (validateForm sampleEnv blankReportNoApp).1 = false ∧
    errorElementById "reportNo-error" (validateForm sampleEnv blankReportNoApp).2.errors =
      some { mkError "reportNo-error" with textContent := "This field is required", shown := true } :=
  ⟨by decide,
    (validateForm_blank_required_message sampleEnv blankReportNoApp
      (mkField "reportNo" "reportNo" "text" "  " false true) (by decide) rfl rfl (by decide)).1,
    ((validateForm_blank_required_message sampleEnv blankReportNoApp
      (mkField "reportNo" "reportNo" "text" "  " false true) (by decide) rfl rfl (by decide)).2
      (mkError "reportNo-error") (by decide) (by decide)).2 (by decide) (by decide)⟩

/-- C4 as stated fails: a required email field that holds one no-break space is blank
after trimming, yet after `validateForm` its error element shows the email message, not
"This field is required". -/
theorem validateForm_blank_email_counterexample :
    nbspEmailField ∈ nbspEmailApp.fields ∧ nbspEmailField.required = true ∧
    jsTrim nbspEmailField.value = "" ∧
    (errorElementById "customerEmail-error" (validateForm sampleEnv nbspEmailApp).2.errors).map
        (fun e => e.textContent) = some "Please enter a valid email address" ∧
    "Please enter a valid email address" ≠ "This field is required" := by
  decide

/-- C5, amended. `validateForm` returns true if and only if every required field of the
form passes `validateField` and the engineer's signature pad, when one was set up, is not
empty (on a page whose pads could not be set up the signature check is skipped); the
customer's pad never changes the result. -/
theorem validateForm_iff_fields_and_engineer_pad (env : Env) (app : App) :
    ((validateForm env app).1 = true ↔
      (∀ f ∈ app.fields, f.inForm = true → f.required = true →
        ∀ errors, (validateField env errors f).1 = true) ∧
      ∀ pad, app.engineerSignaturePad = some pad → pad.isEmpty = false) ∧
    ∀ customer, (validateForm env { app with customerSignaturePad := customer }).1 =
      (validateForm env app).1 := by
  constructor
  · rw [validateForm_result]
    constructor
    · rintro ⟨h₁, h₂⟩
      exact ⟨fun f hf hi hr _ => h₁ f hf hi hr, h₂⟩
    · rintro ⟨h₁, h₂⟩
      exact ⟨fun f hf hi hr => h₁ f hf hi hr [], h₂⟩
  · intro customer
    rw [Bool.eq_iff_iff, validateForm_result, validateForm_result]

/-- C5 as stated fails: on a page whose signature pads could not be set up, `validateForm`
returns true although no signature has been drawn on the engineer's surface. -/
theorem validateForm_without_pad_counterexample :
    (validateForm sampleEnv noPadApp).1 = true ∧ engineerSigned noPadApp = false := by
  decide

/-- C6, amended. `isValidEmail s` is true exactly for the texts of the shape
`local@domain.tld`; an email-typed field holding a non-empty `s` that lacks the shape is
rejected by `validateField` with "Please enter a valid email address", and one holding
an `s` of the shape is accepted with an empty message.  (The empty text lacks the shape
but is not given the email message.) -/
theorem validateField_email_shape (env : Env) (errors : List ErrorElement) (f : Field)
    (htype : f.type = "email") :
    (isValidEmail f.value = true ↔ EmailShape f.value) ∧
    (f.value ≠ "" → ¬ EmailShape f.value →
      (validateField env errors f).1 = false ∧
      ∀ e, errorElementById (f.id ++ "-error") errors = some e →
        errorElementById (f.id ++ "-error") (validateField env errors f).2.1 =
          some { e with textContent := "Please enter a valid email address", shown := true }) ∧
    (EmailShape f.value →
      (validateField env errors f).1 = true ∧
      ∀ e, errorElementById (f.id ++ "-error") errors = some e →
        errorElementById (f.id ++ "-error") (validateField env errors f).2.1 =
          some { e with textContent := "", shown := false }) := by
  refine ⟨isValidEmail_iff_shape f.value, ?_, ?_⟩
  · intro hne hshape
    have hv : isValidEmail f.value = false := by
      cases h : isValidEmail f.value with
      | false => rfl
      | true => exact absurd ((isValidEmail_iff_shape f.value).mp h) hshape
    have hverdict := fieldVerdict_email env f htype hne
    rw [hv] at hverdict
    constructor
    · simp [validateField, hverdict]
    · intro e he
      simp only [validateField]
      rw [errorElementById_setErrorText, if_pos rfl, he, hverdict]
      rfl
  · intro hshape
    have hv : isValidEmail f.value = true := (isValidEmail_iff_shape f.value).mpr hshape
    have hne : f.value ≠ "" := by
      intro h
      rw [h] at hshape
      exact not_emailShape_empty hshape
    have hverdict := fieldVerdict_email env f htype hne
    rw [hv] at hverdict
    constructor
    · simp [validateField, hverdict]
    · intro e he
      simp only [validateField]
      rw [errorElementById_setErrorText, if_pos rfl, he, hverdict]
      rfl

/-- C6, amended, at the sample email field `a@b.co`. -/
theorem validateField_email_shape_witness :
    (mkField "customerEmail" "customerEmail" "email" "a@b.co" false true).type = "email" ∧
    (isValidEmail "a@b.co" = true ↔ EmailShape "a@b.co") :=
  ⟨rfl, (validateField_email_shape sampleEnv []
    (mkField "customerEmail" "customerEmail" "email" "a@b.co" false true) rfl).1⟩

/-- C6 as stated fails at the empty text: it lacks the shape `local@domain.tld`, yet an
email-typed field holding it is accepted by `validateField`. -/
theorem validateField_empty_email_counterexample :
    optionalEmailField.type = "email" ∧ optionalEmailField.value = "" ∧ ¬ EmailShape "" ∧
    (validateField sampleEnv [] optionalEmailField).1 = true :=
  ⟨rfl, rfl, not_emailShape_empty, by decide⟩

/-! ### Claims on persistence -/

theorem loadSavedData_present (env : Env) (app : App) (draft : String) (data : ReportRecord)
    (t : Nat)
    (hdraft : getItem "serviceReportDraft" app.storage = some draft) (hne : draft ≠ "")
    (hparse : env.jsonParse draft = some data)
    (hstamp : getItem "serviceReportDraftTimestamp" app.storage = some (natToString t)) :
    loadSavedData env app =
      if env.now - (t : Int) < 86400000 then
        (if env.confirm then
          (match populateForm data app with
            | Except.ok app₁ => (true, showMessage "Draft restored successfully" "success" app₁)
            | Except.error app₁ => (true, app₁))
        else (true, app))
      else (false, app) := by
  have hts : (natToString t != "") = true := by simpa using natToString_ne_empty t
  unfold loadSavedData
  simp only [hdraft, hne, if_false, hparse, hstamp, parseInt_natToString, hts, Bool.true_and]
  by_cases hfresh : env.now - (t : Int) < 86400000
  · have : env.now - (t : Int) < 24 * 60 * 60 * 1000 := by norm_num; exact hfresh
    simp [hfresh, this]
  · have : ¬ env.now - (t : Int) < 24 * 60 * 60 * 1000 := by norm_num; omega
    simp [hfresh, this]

/-- C8. Draft freshness: when a draft and its timestamp `t` are stored, `loadSavedData`
offers the draft (shows the restore dialog) exactly when `now - t` is less than 24 hours;
when it does not offer it, nothing is changed; when the draft or its timestamp is absent,
nothing is offered and nothing is changed.  In particular a draft stamped `now - 23h` is
offered and one stamped `now - 25h` is not. -/
theorem loadSavedData_offers_fresh_draft (env : Env) (app : App) (draft : String)
    (data : ReportRecord) (t : Nat)
    (hdraft : getItem "serviceReportDraft" app.storage = some draft) (hne : draft ≠ "")
    (hparse : env.jsonParse draft = some data)
    (hstamp : getItem "serviceReportDraftTimestamp" app.storage = some (natToString t)) :
    ((loadSavedData env app).1 = true ↔ env.now - (t : Int) < 24 * 60 * 60 * 1000) ∧
    ((loadSavedData env app).1 = false → (loadSavedData env app).2 = app) ∧
    (env.now = (t : Int) + 23 * 60 * 60 * 1000 → (loadSavedData env app).1 = true) ∧
    (env.now = (t : Int) + 25 * 60 * 60 * 1000 →
      (loadSavedData env app).1 = false ∧ (loadSavedData env app).2 = app) ∧
    ∀ other : App,
      (getItem "serviceReportDraft" other.storage = none ∨
        getItem "serviceReportDraftTimestamp" other.storage = none) →
      loadSavedData env other = (false, other) := by
  have h := loadSavedData_present env app draft data t hdraft hne hparse hstamp
  have hiff : (loadSavedData env app).1 = true ↔ env.now - (t : Int) < 86400000 := by
    rw [h]
    by_cases hfresh : env.now - (t : Int) < 86400000
    · simp only [hfresh, if_true, iff_true]
      by_cases hc : env.confirm = true
      · simp only [hc, if_true]
        cases populateForm data app <;> rfl
      · simp [hc]
    · simp [hfresh]
  have hstale : (loadSavedData env app).1 = false → (loadSavedData env app).2 = app := by
    intro hf
    have hn : ¬ env.now - (t : Int) < 86400000 := by
      intro hlt
      rw [hiff.mpr hlt] at hf
      exact absurd hf (by simp)
    rw [h]
    simp [hn]
  refine ⟨by norm_num; exact hiff, hstale, ?_, ?_, ?_⟩
  · intro hnow
    exact hiff.mpr (by omega)
  · intro hnow
    have hf : (loadSavedData env app).1 = false := by
      cases hv : (loadSavedData env app).1 with
      | false => rfl
      | true => have := hiff.mp hv; omega
    exact ⟨hf, hstale hf⟩
  · intro other habsent
    unfold loadSavedData
    cases hd : getItem "serviceReportDraft" other.storage with
    | none => rfl
    | some d =>
      rcases habsent with habs | habs
      · rw [hd] at habs
        exact absurd habs (by simp)
      · simp only [habs]
        by_cases hd₁ : d = ""
        · simp [hd₁]
        · simp only [hd₁, if_false]
          cases env.jsonParse d <;> rfl

/-- C8, at the sample form: its draft is stamped 10 000 seconds before now, and it is
offered. -/
theorem loadSavedData_offers_fresh_draft_witness :
    getItem "serviceReportDraft" sampleApp.storage = some "draft" ∧
    getItem "serviceReportDraftTimestamp" sampleApp.storage = some (natToString 1699990000000) ∧
    (loadSavedData sampleEnv sampleApp).1 = true :=
  ⟨rfl, by decide,
    (loadSavedData_offers_fresh_draft sampleEnv sampleApp "draft" [] 1699990000000 rfl
      (by decide) rfl (by decide)).1.mpr (by decide)⟩

/-- C2, the code at a failing input: after `handleClearForm` with the confirmation
accepted, the submitted snapshot is gone but the draft snapshot is still stored under
`serviceReportDraft` and `serviceReportDraftTimestamp`. -/
theorem handleClearForm_keeps_draft :
    sampleEnv.confirm = true ∧
    getItem "serviceReport" (handleClearForm sampleEnv storedApp).storage = none ∧
    getItem "serviceReportTimestamp" (handleClearForm sampleEnv storedApp).storage = none ∧
    getItem "serviceReportDraft" (handleClearForm sampleEnv storedApp).storage = some "draft" ∧
    getItem "serviceReportDraftTimestamp" (handleClearForm sampleEnv storedApp).storage =
      some "1699990000000" := by
  decide

/-- C1, the code at failing inputs: the round trip `populateForm(getFormData())` on an empty
copy restores only the first control of a group.  Of two checked checkboxes of one group
the second comes back unchecked, and a radio group whose second button was selected
comes back with no button selected. -/
theorem roundTrip_loses_group_members :
    checkboxGroupApp.fields.map (fun f => f.checked) = [true, true] ∧
    checkedStates (roundTrip sampleEnv checkboxGroupApp) = [true, false] ∧
    radioGroupApp.fields.map (fun f => f.checked) = [false, true] ∧
    checkedStates (roundTrip sampleEnv radioGroupApp) = [false, false] := by
  decide

/-! ### Claims on formatting -/

/-- C10, amended. For every local date whose year has four digits (1000 to 9999) and every
binary64 value `r = m · 2 ^ e` (with `m < 2 ^ 53`) of the random source with `0 ≤ r < 1`,
the result of `generateReportNumber` matches `SR-\d{8}-\d{3}`: it is `SR-`, the four
digits of the year, the month and the day padded to two digits each, `-`, and the integer
`k = Math.floor(r * 1000)`, which lies in `[0, 999]`, padded to three digits. -/
theorem generateReportNumber_format (env : Env) (m : Nat) (e : Int)
    (hyear : 1000 ≤ env.localYear ∧ env.localYear ≤ 9999)
    (hmonth : env.localMonth < 12)
    (hday : 1 ≤ env.localDay ∧ env.localDay ≤ 31)
    (hrandom : env.random = Number.fin false m e) (hdouble : m < 2 ^ 53)
    (hunit : m * 2 ^ e.toNat < 2 ^ (-e).toNat) :
    Regex.test reportNumberRegex (generateReportNumber env) = true ∧
    ∃ k, Number.floor (Number.mul env.random (Number.ofNat 1000)) = Number.fin false k 0 ∧ k ≤ 999 ∧
      generateReportNumber env =
        "SR-" ++ natToString env.localYear.toNat ++
          padStart (natToString (env.localMonth + 1)) 2 '0' ++
          padStart (natToString env.localDay) 2 '0' ++ "-" ++ padStart (natToString k) 3 '0' ∧
      (natToString env.localYear.toNat).data.length = 4 ∧
      (padStart (natToString (env.localMonth + 1)) 2 '0').data.length = 2 ∧
      (padStart (natToString env.localDay) 2 '0').data.length = 2 ∧
      (padStart (natToString k) 3 '0').data.length = 3 := by
  obtain ⟨k, hk, hk999⟩ := floor_mul_1000_le m e hdouble hunit
  have hy : (natToString env.localYear.toNat).data.length = 4 :=
    natToString_length (j := 3) (by norm_num; omega) (by norm_num; omega)
  have hmo := padStart_zero_spec (natToString (env.localMonth + 1)) 2
    (natToString_length_le (j := 1) (by norm_num; omega)) (natToString_digits _)
  have hda := padStart_zero_spec (natToString env.localDay) 2
    (natToString_length_le (j := 1) (by norm_num; omega)) (natToString_digits _)
  have hra := padStart_zero_spec (natToString k) 3
    (natToString_length_le (j := 2) (by norm_num; omega)) (natToString_digits _)
  have hint : intToString env.localYear = natToString env.localYear.toNat := by
    unfold intToString
    have : ¬ env.localYear < 0 := by omega
    simp [this]
  have heq : generateReportNumber env =
      "SR-" ++ natToString env.localYear.toNat ++
        padStart (natToString (env.localMonth + 1)) 2 '0' ++
        padStart (natToString env.localDay) 2 '0' ++ "-" ++ padStart (natToString k) 3 '0' := by
    unfold generateReportNumber
    simp only [hint]
    rw [hrandom, hk, toText_small hk999]
  refine ⟨?_, k, by rw [hrandom]; exact hk, hk999, heq, hy, hmo.1, hda.1, hra.1⟩
  rw [heq]
  unfold Regex.test
  have hdata : ("SR-" ++ natToString env.localYear.toNat ++
        padStart (natToString (env.localMonth + 1)) 2 '0' ++
        padStart (natToString env.localDay) 2 '0' ++ "-" ++ padStart (natToString k) 3 '0').data =
      'S' :: 'R' :: '-' :: (((natToString env.localYear.toNat).data ++
        (padStart (natToString (env.localMonth + 1)) 2 '0').data ++
        (padStart (natToString env.localDay) 2 '0').data) ++
        '-' :: (padStart (natToString k) 3 '0').data) := by
    simp [String.data_append]
  rw [hdata]
  apply rmatch_reportNumberRegex
  · simp only [List.length_append]
    omega
  · exact hra.1
  · intro c hc
    simp only [List.mem_append] at hc
    rcases hc with (hc | hc) | hc
    · exact natToString_digits _ c hc
    · exact hmo.2 c hc
    · exact hda.2 c hc
  · exact hra.2

/-- C10, amended, at the sample date 5 January 2024 with the random value one half. -/
theorem generateReportNumber_format_witness :
    (1000 ≤ sampleEnv.localYear ∧ sampleEnv.localYear ≤ 9999) ∧
    sampleEnv.random = Number.fin false 1 (-1) ∧
    Regex.test reportNumberRegex (generateReportNumber sampleEnv) = true :=
  ⟨by decide, rfl,
    (generateReportNumber_format sampleEnv 1 (-1) (by decide) (by decide) (by decide) rfl
      (by decide) (by decide)).1⟩

/-- C10 as stated fails for a year of five digits: on 5 January 10000 the result has nine
digits after `SR-` and does not match `SR-\d{8}-\d{3}`. -/
theorem generateReportNumber_year_counterexample :
    generateReportNumber { sampleEnv with localYear := 10000 } = "SR-100000105-500" ∧
    Regex.test reportNumberRegex (generateReportNumber { sampleEnv with localYear := 10000 }) =
      false := by
  decide

theorem tenthsToString_shape (n : Nat) :
    ∃ ds d, (Number.tenthsToString n).data = ds ++ ['.', d] ∧ ds ≠ [] ∧
      (∀ c ∈ ds, isDigit c = true) ∧ isDigit d = true :=
  ⟨natDigits (n / 10 + 1) (n / 10), digitChar (n % 10), rfl, natDigits_ne_nil _ _,
    natDigits_all_digits _ _, (digitChar_spec (n % 10) (Nat.mod_lt n (by decide))).1⟩

theorem tenthsRounded_nearest (m : Nat) (e : Int) :
    2 * 2 ^ (-e).toNat * Number.tenthsRounded m e ≤ 2 * (10 * m * 2 ^ e.toNat) + 2 ^ (-e).toNat ∧
    2 * (10 * m * 2 ^ e.toNat) + 2 ^ (-e).toNat <
      2 * 2 ^ (-e).toNat * (Number.tenthsRounded m e + 1) := by
  unfold Number.tenthsRounded
  have hpos : 0 < 2 * 2 ^ (-e).toNat := by positivity
  constructor
  · exact Nat.mul_div_le _ _
  · exact Nat.lt_mul_div_succ _ hpos

/-- C7, amended. `calculateTotalCurrent` reads both inputs with `parseFloat`, counts an
input that reads as NaN (empty or not numeric) as zero, and sets the total-current field
to the empty string when the sum is not greater than zero (zero, negative or NaN) and
otherwise to `total.toFixed(1)`; for a finite sum below `10 ^ 21` that text is the number
of tenths nearest to the sum (the larger of two), written with exactly one digit after
the point.  In particular (3, 4) gives "7.0", (0, 0) and (blank, blank) give "",
(2.25, 1.05) gives "3.3", and (abc, 4) gives "4.0". -/
theorem calculateTotalCurrent_total (app : App) (a b : String) (i : Nat)
    (ha : valueById app.fields "compressorCurrent" = some a)
    (hb : valueById app.fields "fanPumpCurrent" = some b)
    (hi : getElementById app.fields "totalCurrent" = some i) :
    valueById (calculateTotalCurrent app).fields "totalCurrent" =
      some (if Number.gtZero (currentSum a b) then Number.toFixed1 (currentSum a b) else "") ∧
    (parseFloat "" = Number.nan ∧ Number.orZero Number.nan = Number.zero) ∧
    (∀ mant ex, currentSum a b = Number.fin false mant ex → 0 < mant →
      Number.atLeast1e21 mant ex = false →
      Number.toFixed1 (currentSum a b) = Number.tenthsToString (Number.tenthsRounded mant ex) ∧
      (2 * 2 ^ (-ex).toNat * Number.tenthsRounded mant ex ≤
          2 * (10 * mant * 2 ^ ex.toNat) + 2 ^ (-ex).toNat ∧
        2 * (10 * mant * 2 ^ ex.toNat) + 2 ^ (-ex).toNat <
          2 * 2 ^ (-ex).toNat * (Number.tenthsRounded mant ex + 1)) ∧
      ∃ ds d, (Number.toFixed1 (currentSum a b)).data = ds ++ ['.', d] ∧ ds ≠ [] ∧
        (∀ c ∈ ds, isDigit c = true) ∧ isDigit d = true) ∧
    valueById (calculateTotalCurrent (currentApp "3" "4")).fields "totalCurrent" = some "7.0" ∧
    valueById (calculateTotalCurrent (currentApp "0" "0")).fields "totalCurrent" = some "" ∧
    valueById (calculateTotalCurrent (currentApp "" "")).fields "totalCurrent" = some "" ∧
    valueById (calculateTotalCurrent (currentApp "2.25" "1.05")).fields "totalCurrent" =
      some "3.3" ∧
    valueById (calculateTotalCurrent (currentApp "abc" "4")).fields "totalCurrent" =
      some "4.0" := by
  refine ⟨?_, ⟨by decide, by decide⟩, ?_, by decide, by decide, by decide, by decide, by decide⟩
  · unfold calculateTotalCurrent
    simp only [ha, hb, hi]
    exact valueById_modifyAt _ hi
  · intro mant ex hsum hpos hbig
    have htext : Number.toFixed1 (currentSum a b) = Number.tenthsToString (Number.tenthsRounded mant ex) := by
      rw [hsum]
      simp [Number.toFixed1, hbig]
    refine ⟨htext, tenthsRounded_nearest mant ex, ?_⟩
    rw [htext]
    exact tenthsToString_shape _

/-- C7, amended, at the inputs 3 and 4. -/
theorem calculateTotalCurrent_total_witness :
    valueById (currentApp "3" "4").fields "compressorCurrent" = some "3" ∧
    valueById (currentApp "3" "4").fields "fanPumpCurrent" = some "4" ∧
    valueById (calculateTotalCurrent (currentApp "3" "4")).fields "totalCurrent" =
      some (if Number.gtZero (currentSum "3" "4") then Number.toFixed1 (currentSum "3" "4") else "") :=
  ⟨by decide, by decide,
    (calculateTotalCurrent_total (currentApp "3" "4") "3" "4" 2 (by decide) (by decide)
      (by decide)).1⟩

/-- C7 as stated fails for a negative sum: with the inputs -3 and 1 the sum is -2, not
zero, yet the field is set to the empty string and not to "-2.0". -/
theorem calculateTotalCurrent_negative_counterexample :
    Number.truthy (currentSum "-3" "1") = true ∧
    Number.toFixed1 (currentSum "-3" "1") = "-2.0" ∧
    valueById (calculateTotalCurrent (currentApp "-3" "1")).fields "totalCurrent" = some "" := by
  decide

end ServiceReport
